import Mathlib

/-!
# flags.games server — verification of the realtime session engine

Shallow embedding of the flags.games multiplayer backend (TypeScript/Bun) and
proofs about it.  Each definition is translated from a named source function;
JavaScript `Map`s become association lists with `Map.set` semantics
(replace-in-place or append), mutable singletons become explicit state passing
on `ServerState`, `setTimeout` handles become timer-registry fields, and
broadcasts become an emitted-event list.  Machine numbers are `Int`/`Nat`
(all relevant arithmetic is integer-valued) and `ℚ` where the source divides.
-/

namespace FlagsGames

/-- `Country` record (`src/lib/game-logic/data/countries`, interface in
`types/entities.ts`): only the fields used by the game engine. -/
structure Country where
  code : String
  name : String
deriving DecidableEq, Repr

/-- `GameQuestion` (`src/types/entities.ts`). -/
structure GameQuestion where
  questionNumber : Nat
  country : Country
  options : List Country
  correctAnswer : String
  startTime : Int
  endTime : Int
deriving DecidableEq, Repr

/-- `GameAnswer` (`src/types/entities.ts`). -/
structure GameAnswer where
  userId : String
  username : String
  answer : String
  timeToAnswer : Int
  isCorrect : Bool
  pointsAwarded : Int
  timestamp : Int
deriving DecidableEq, Repr

/-- `GameStateLeaderboard` (`src/types/entities.ts`).  `averageTime` is a
JavaScript number produced by a division, embedded as `ℚ`. -/
structure LeaderboardEntry where
  userId : String
  username : String
  score : Int
  correctAnswers : Nat
  averageTime : ℚ
deriving DecidableEq, Repr

/-- The game-state phase (`src/types/entities.ts`). -/
inductive GamePhase
  | waiting | starting | question | results | finished
deriving DecidableEq, Repr

/-- `Difficulty` (`src/lib/constants/game-constants.ts`). -/
inductive Difficulty
  | easy | medium | hard | expert
deriving DecidableEq, Repr

/-- `GameState` (`src/types/entities.ts`).  The `questionTimer`/`resultTimer`
handles stored inside the room object are represented in the separate timer
registries of `ServerState` (the manager keys them by room id). -/
structure GameState where
  isActive : Bool
  phase : GamePhase
  currentQuestion : Option GameQuestion
  answers : List GameAnswer
  answerHistory : List GameAnswer
  currentQuestionIndex : Nat
  totalQuestions : Nat
  difficulty : Difficulty
  gameStartTime : Option Int
  gameEndTime : Option Int
  usedCountries : List String
  leaderboard : List LeaderboardEntry
deriving DecidableEq, Repr

/-- `RoomMember` (`src/types/entities.ts`): a `User` plus per-game fields. -/
structure RoomMember where
  id : String
  username : String
  roomId : String
  isAdmin : Bool
  hasAnswered : Bool
  score : Int
deriving DecidableEq, Repr

/-- `RoomSettings` (`src/types/entities.ts`): the fields the engine reads. -/
structure RoomSettings where
  maxRoomSize : Nat
  difficulty : Difficulty
  timePerQuestion : Nat
deriving DecidableEq, Repr

/-- `Room` (`src/types/entities.ts`).  `kickedUsers` appears on the `Room`
used by the WebSocket manager (`room.kickedUsers.includes(...)`); the room
record otherwise carries the `entities.ts` fields relevant to the claims. -/
structure Room where
  id : String
  name : String
  host : String
  inviteCode : String
  gameState : GameState
  members : List RoomMember
  settings : RoomSettings
  kickedUsers : List String
deriving DecidableEq, Repr

/-- `User` (`src/types/entities.ts`): the fields the handlers read. -/
structure User where
  id : String
  username : String
  roomId : String
  isAdmin : Bool
deriving DecidableEq, Repr

/-- The in-memory server state: the room store, user store, connection
registry (user ids with a live socket) and the per-room timer registries of
`GameManager` (`questionTimers` / `resultTimers`). -/
structure ServerState where
  rooms : List Room
  users : List User
  connections : List String
  questionTimers : List String
  resultTimers : List String
deriving DecidableEq, Repr

/-- `CORRECT_POINT_COST` (`src/lib/constants/game-constants.ts`, line 1). -/
def CORRECT_POINT_COST : Int := 1

/-- Modelled from the spec: the `countries` dataset
(`src/lib/game-logic/data/countries`) is imported but not among the provided
sources; the spec bounds `questionCount` by 197, the dataset size. -/
def countriesCount : Nat := 197

/-- `getDifficultySettings(difficulty).count`
(`src/lib/game-logic/data/expertPools.ts`): easy 15, medium 25,
hard/expert the size of the full country list. -/
def difficultyQuestionCount : Difficulty → Nat
  | .easy => 15
  | .medium => 25
  | .hard => countriesCount
  | .expert => countriesCount

/-! ## Store primitives

The managers keep `Map<string, Room>` / `Map<string, User>` keyed by id.
A JavaScript `Map.set` replaces the value of an existing key in place and
appends a new key; lookups are embedded through `find?` on the id. -/

/-- `Map.set` on the room store (`RoomManager.set`). -/
def mapSetRoom (rooms : List Room) (room : Room) : List Room :=
  if (rooms.find? (fun r => r.id == room.id)).isSome then
    rooms.map (fun r => if r.id == room.id then room else r)
  else
    rooms ++ [room]

/-- `RoomManager.getRoom` / `get`. -/
def findRoom (rooms : List Room) (roomId : String) : Option Room :=
  rooms.find? (fun r => r.id == roomId)

/-- `Map.set` on the user store (`UserManager.setUser`). -/
def mapSetUser (users : List User) (user : User) : List User :=
  if (users.find? (fun u => u.id == user.id)).isSome then
    users.map (fun u => if u.id == user.id then user else u)
  else
    users ++ [user]

/-- `UserManager.getUser`. -/
def findUser (users : List User) (userId : String) : Option User :=
  users.find? (fun u => u.id == userId)

def getRoom (s : ServerState) (roomId : String) : Option Room :=
  findRoom s.rooms roomId

def setRoom (s : ServerState) (room : Room) : ServerState :=
  { s with rooms := mapSetRoom s.rooms room }

def getUser (s : ServerState) (userId : String) : Option User :=
  findUser s.users userId

def setUser (s : ServerState) (user : User) : ServerState :=
  { s with users := mapSetUser s.users user }

/-- `UserManager.deleteUser` (the user record part; the connection binding is
kept in `connections`). -/
def deleteUser (s : ServerState) (userId : String) : ServerState :=
  { s with users := s.users.filter (fun u => u.id != userId) }

/-- `RoomManager.delete` (`Map.delete`). -/
def deleteRoom (s : ServerState) (roomId : String) : ServerState :=
  { s with rooms := s.rooms.filter (fun r => r.id != roomId) }

/-- `UserManager.updateUser`: spread-update an existing record, `null` when
absent.  The partial update object becomes the function `f`. -/
def updateUser (s : ServerState) (userId : String) (f : User → User) :
    Option User × ServerState :=
  match getUser s userId with
  | none => (none, s)
  | some u =>
    let u' := f u
    (some u', setUser s u')

/-- `UserManager.createUser` (the fields the claims read; `roomId` starts as
given, `isAdmin` defaults false). -/
def createUser (s : ServerState) (userId username : String) : ServerState :=
  let u : User := { id := userId, username := username, roomId := "", isAdmin := false }
  { s with users := mapSetUser s.users u }

/-! ## RoomManager membership operations (`src/lib/managers/room-management.ts`) -/

/-- `RoomManager.update`: spread-update an existing room, `null` when absent. -/
def updateRoom (s : ServerState) (roomId : String) (f : Room → Room) :
    Option Room × ServerState :=
  match getRoom s roomId with
  | none => (none, s)
  | some room =>
    let room' := f room
    (some room', setRoom s room')

/-- `RoomManager.addUserToRoom` (lines 118–133): `null` when the room is
absent or full; the existing member is returned unchanged; otherwise the user
is appended to `members`. -/
def addUserToRoom (s : ServerState) (roomId : String) (user : RoomMember) :
    Option Room × ServerState :=
  match getRoom s roomId with
  | none => (none, s)
  | some room =>
    if room.settings.maxRoomSize ≤ room.members.length then (none, s)
    else if (room.members.find? (fun m => m.id == user.id)).isSome then (some room, s)
    else
      let updated := { room with members := room.members ++ [user] }
      (some updated, setRoom s updated)

/-- `RoomManager.removeUserFromRoom` (lines 135–144). -/
def removeUserFromRoom (s : ServerState) (roomId userId : String) :
    Option Room × ServerState :=
  match getRoom s roomId with
  | none => (none, s)
  | some room =>
    let updated := { room with members := room.members.filter (fun m => m.id != userId) }
    (some updated, setRoom s updated)

/-- `RoomManager.setNewHost` (lines 146–154). -/
def setNewHost (s : ServerState) (roomId newHostId : String) :
    Option Room × ServerState :=
  match getRoom s roomId with
  | none => (none, s)
  | some room =>
    if (room.members.find? (fun m => m.id == newHostId)).isSome then
      let updated := { room with host := newHostId }
      (some updated, setRoom s updated)
    else (none, s)

/-- `RoomManager.updateGameState` (lines 156–165): spread the game-state
update into the room. -/
def updateGameState (s : ServerState) (roomId : String) (f : GameState → GameState) :
    Option Room × ServerState :=
  match getRoom s roomId with
  | none => (none, s)
  | some room =>
    let updated := { room with gameState := f room.gameState }
    (some updated, setRoom s updated)

/-- `RoomManager.getRoomByInviteCode` (lines 63–67). -/
def getRoomByInviteCode (s : ServerState) (inviteCode : String) : Option Room :=
  s.rooms.find? (fun r => r.inviteCode == inviteCode)

/-- Modelled from the spec: `roomsManager.kickUserFromRoom` is called by
`WebSocketManager.handleKickUser` and `UserManager.kickUser` but its
definition is not among the provided sources.  Per the spec (KICK_USER:
"target moved to `kickedUsers`"), it removes the target from the member list
and records the target in the room's `kickedUsers`. -/
def kickUserFromRoom (s : ServerState) (roomId userId : String) :
    Option Room × ServerState :=
  match getRoom s roomId with
  | none => (none, s)
  | some room =>
    let updated := { room with
      members := room.members.filter (fun m => m.id != userId),
      kickedUsers := room.kickedUsers ++ [userId] }
    (some updated, setRoom s updated)

/-! ## Leaderboard (`GameManager.computeLeaderboardFromHistory`,
`src/lib/managers/game-management.ts` lines 276–307)

The per-user accumulator `Map<string, {score, correct, timeSum, count}>` is an
association list with `Map.set` semantics; the trailing
`sort((a, b) => b.score - a.score)` is a stable sort (ES2019 `Array#sort` is
stable) ordering by score descending, embedded as a stable insertion sort. -/

/-- The per-user accumulator record of `computeLeaderboardFromHistory`. -/
structure UserStat where
  score : Int
  correct : Nat
  timeSum : Int
  count : Nat
deriving DecidableEq, Repr

/-- The accumulator default `{ score: 0, correct: 0, timeSum: 0, count: 0 }`. -/
def emptyStat : UserStat := ⟨0, 0, 0, 0⟩

/-- One loop iteration of the aggregation over `answerHistory`. -/
def addAnswer (st : UserStat) (a : GameAnswer) : UserStat :=
  { score := st.score + a.pointsAwarded,
    correct := st.correct + (if a.isCorrect then 1 else 0),
    timeSum := st.timeSum + a.timeToAnswer,
    count := st.count + 1 }

/-- `Map.get` on the accumulator map. -/
def statLookup (m : List (String × UserStat)) (k : String) : Option UserStat :=
  (m.find? (fun p => p.1 == k)).map (·.2)

/-- `Map.set` on the accumulator map. -/
def statSet : List (String × UserStat) → String → UserStat → List (String × UserStat)
  | [], k, v => [(k, v)]
  | p :: ps, k, v => if p.1 == k then (k, v) :: ps else p :: statSet ps k v

/-- The `for (const answer of answerHistory)` aggregation loop, from an
arbitrary starting map (for induction; the source starts from the empty map). -/
def statsFoldFrom (m : List (String × UserStat)) (history : List GameAnswer) :
    List (String × UserStat) :=
  history.foldl
    (fun m a => statSet m a.userId (addAnswer ((statLookup m a.userId).getD emptyStat) a)) m

def statsFold (history : List GameAnswer) : List (String × UserStat) :=
  statsFoldFrom [] history

/-- The `room.members.map` body building one leaderboard row from the
member's accumulator entry (zeros when the member has no entry;
`averageTime = count ? timeSum / count : 0`). -/
def entryOfStat (member : RoomMember) : Option UserStat → LeaderboardEntry
  | none => ⟨member.id, member.username, 0, 0, 0⟩
  | some st =>
    ⟨member.id, member.username, st.score, st.correct,
      if st.count ≠ 0 then (st.timeSum : ℚ) / (st.count : ℚ) else 0⟩

/-- Insert into a descending-by-score list, after existing entries of equal
score (the unique stable position). -/
def insertByScoreDesc (x : LeaderboardEntry) : List LeaderboardEntry → List LeaderboardEntry
  | [] => [x]
  | y :: ys => if y.score ≤ x.score then x :: y :: ys else y :: insertByScoreDesc x ys

/-- The stable `sort((a, b) => b.score - a.score)`. -/
def sortByScoreDesc (l : List LeaderboardEntry) : List LeaderboardEntry :=
  l.foldr insertByScoreDesc []

/-- `GameManager.computeLeaderboardFromHistory` (lines 276–307). -/
def computeLeaderboardFromHistory (room : Room) (answerHistory : List GameAnswer) :
    List LeaderboardEntry :=
  let stats := statsFold answerHistory
  sortByScoreDesc (room.members.map (fun member => entryOfStat member (statLookup stats member.id)))

/-! ## Broadcasts

`broadcastToRoom(roomId, message, exclude)` / `broadcastToUser(userId, message)`
/ `ws.send(...)` calls become an ordered event list. -/

/-- Error codes surfaced through `ErrorHandler` (`error-handler.ts`). -/
inductive ErrCode
  | authenticationError | userAlreadyInRoom | roomNotFound | kickedFromRoom
  | usernameTaken | roomFull | userNotFound | internalError | rateLimitExceeded
deriving DecidableEq, Repr

/-- Outbound message payloads (the fields the claims mention). -/
inductive WsMsg
  | answerSubmitted (userId username : String) (totalAnswers totalPlayers : Nat)
      (pointsAwarded score : Int)
  | questionResults (correctAnswer : String) (correctCountry : Country)
      (playerAnswers : List GameAnswer) (leaderboard : List LeaderboardEntry)
  | newQuestion (question : GameQuestion) (totalQuestions : Nat)
  | gameStarting (countdown : Nat)
  | gameRestarted (countdown : Nat)
  | gameEnded (leaderboard : List LeaderboardEntry)
  | gameStopped
  | hostChanged (newHost : RoomMember)
  | userLeft (userId : String) (room : Room)
  | userJoined (userId : String) (room : Room)
  | userKicked (userId : String) (room : Room)
  | kicked (reason : String)
  | joinRoomSuccess (room : Room) (userId : String)
  | createRoomSuccess (room : Room) (userId : String)
  | settingsUpdated (settings : RoomSettings)
  | error (code : ErrCode)
deriving DecidableEq, Repr

/-- One network effect: a room broadcast (with its exclusion list), a direct
send to a user's connection, or a send on the handling connection itself. -/
inductive Emit
  | toRoom (roomId : String) (exclude : List String) (msg : WsMsg)
  | toUser (userId : String) (msg : WsMsg)
  | toCaller (msg : WsMsg)
deriving DecidableEq, Repr

/-! ## GameManager (`src/lib/managers/game-management.ts`)

`this.questionTimers` / `this.resultTimers` are the `ServerState` registries;
`clearTimeout` + `delete` remove a room id, `set` installs it.  `Date.now()`
becomes the explicit `now` argument. -/

/-- `GameManager.clearTimers` (lines 331–344). -/
def clearTimers (s : ServerState) (roomId : String) : ServerState :=
  { s with
    questionTimers := s.questionTimers.filter (fun r => r != roomId),
    resultTimers := s.resultTimers.filter (fun r => r != roomId) }

/-- `GameManager.endQuestion` (lines 198–222): cancel timers, cache the
leaderboard, move to `results`, emit `QUESTION_RESULTS`, schedule the
3-second `nextQuestion` result timer. -/
def endQuestion (s : ServerState) (roomId : String) : ServerState × List Emit :=
  match getRoom s roomId with
  | none => (s, [])
  | some room =>
    match room.gameState.currentQuestion with
    | none => (s, [])
    | some question =>
      let s1 := clearTimers s roomId
      let cachedLeaderboard := computeLeaderboardFromHistory room room.gameState.answerHistory
      let s2 := (updateGameState s1 roomId (fun gs =>
        { gs with phase := .results, leaderboard := cachedLeaderboard })).2
      let s3 := { s2 with
        resultTimers := s2.resultTimers.filter (fun r => r != roomId) ++ [roomId] }
      (s3, [Emit.toRoom roomId [] (.questionResults question.correctAnswer question.country
              room.gameState.answers cachedLeaderboard)])

/-- `GameManager.submitAnswer` (lines 131–196). -/
def submitAnswer (s : ServerState) (roomId userId answer : String) (now : Int) :
    ServerState × List Emit :=
  match getRoom s roomId, getUser s userId with
  | some room, some user =>
    match room.gameState.currentQuestion with
    | none => (s, [])
    | some question =>
      if room.gameState.phase ≠ .question then (s, [])
      else if (room.gameState.answers.find? (fun a => a.userId == userId)).isSome then (s, [])
      else
        let timeToAnswer := now - question.startTime
        let isCorrect := answer == question.correctAnswer
        let pointsAwarded : Int := if isCorrect then CORRECT_POINT_COST else 0
        let gameAnswer : GameAnswer :=
          { userId := userId, username := user.username, answer := answer,
            timeToAnswer := timeToAnswer, isCorrect := isCorrect,
            pointsAwarded := pointsAwarded, timestamp := now }
        let updatedAnswers := room.gameState.answers ++ [gameAnswer]
        let updatedHistory := room.gameState.answerHistory ++ [gameAnswer]
        let updatedLeaderboard := computeLeaderboardFromHistory room updatedHistory
        let s1 := (updateGameState s roomId (fun gs =>
          { gs with answers := updatedAnswers, answerHistory := updatedHistory,
                    leaderboard := updatedLeaderboard })).2
        let userScore :=
          ((updatedHistory.filter (fun a => a.userId == userId)).map (·.pointsAwarded)).sum
        let submittedMsg := Emit.toRoom roomId []
          (.answerSubmitted userId user.username updatedAnswers.length room.members.length
            pointsAwarded userScore)
        if updatedAnswers.length = room.members.length then
          let r := endQuestion s1 roomId
          (r.1, submittedMsg :: r.2)
        else (s1, [submittedMsg])
  | _, _ => (s, [])

/-- `GameManager.resetGameState` (lines 19–51): fresh `starting` game state,
members reset to `hasAnswered := false`, `score := 0`. -/
def resetGameState (s : ServerState) (roomId : String) (now : Int) : ServerState :=
  match getRoom s roomId with
  | none => s
  | some room =>
    let s1 := clearTimers s roomId
    let freshState : GameState :=
      { isActive := true, phase := .starting, currentQuestion := none,
        answers := [], answerHistory := [], currentQuestionIndex := 0,
        totalQuestions := difficultyQuestionCount room.settings.difficulty,
        difficulty := room.settings.difficulty,
        gameStartTime := some now, gameEndTime := none,
        usedCountries := [], leaderboard := [] }
    let s2 := (updateGameState s1 roomId (fun _ => freshState)).2
    let resetMembers := room.members.map (fun m => { m with hasAnswered := false, score := 0 })
    (updateRoom s2 roomId (fun r => { r with members := resetMembers })).2

/-- `GameManager.restartGame` (lines 352–373).  The anonymous 5-second
`setTimeout(nextQuestion)` handle is not stored in either timer registry in
the source, so no registry change is recorded. -/
def restartGame (s : ServerState) (roomId userId : String) (now : Int) :
    Bool × ServerState × List Emit :=
  match getRoom s roomId with
  | none => (false, s, [])
  | some room =>
    if room.host ≠ userId then (false, s, [])
    else if room.members.length < 2 then (false, s, [])
    else if room.gameState.isActive = true ∧ room.gameState.phase ≠ .finished then
      (false, s, [])
    else
      let s1 := resetGameState s roomId now
      (true, s1, [Emit.toRoom roomId [] (.gameRestarted 5)])

/-- `GameManager.stopGame` (lines 375–394). -/
def stopGame (s : ServerState) (roomId : String) (now : Int) :
    Bool × ServerState × List Emit :=
  match getRoom s roomId with
  | none => (false, s, [])
  | some _ =>
    let s1 := clearTimers s roomId
    let s2 := (updateGameState s1 roomId (fun gs =>
      { gs with isActive := false, phase := .waiting, currentQuestion := none,
                gameEndTime := some now })).2
    (true, s2, [Emit.toRoom roomId [] .gameStopped])

/-! ## WebSocketManager (current manager, `handleJoinRoom` /
`handleUserDisconnect` / `handleKickUser` / `handleUpdateRoomSettings`)

`ws.data` is passed explicitly as `wsUserId` / `wsRoomId`.  The per-action
rate-limiter gate at the top of a handler is abstracted by the boolean
`rlAllowed` (its counter state is verified separately, §rate limiter); the
claims' hypotheses put it in the admitted case. -/

/-- Modelled from the spec: `usersManager.removeUserFromRoom`, called by
`removeConnectionAndUser`, is not among the provided sources; per §4.6 it
detaches the user from the room named by their `roomId`. -/
def userLeaveOwnRoom (s : ServerState) (userId : String) : ServerState :=
  match getUser s userId with
  | none => s
  | some user =>
    if user.roomId = "" then s else (removeUserFromRoom s user.roomId userId).2

/-- `WebSocketManager.removeConnectionAndUser`: no-op without a registered
connection; otherwise drop the connection, detach the user from their room,
delete the user record. -/
def removeConnectionAndUser (s : ServerState) (userId : String) : ServerState :=
  if userId ∈ s.connections then
    let s1 := { s with connections := s.connections.filter (fun u => u != userId) }
    let s2 :=
      match getUser s1 userId with
      | some user => if user.roomId ≠ "" then userLeaveOwnRoom s1 userId else s1
      | none => s1
    deleteUser s2 userId
  else s

/-- `WebSocketManager.handleUserDisconnect`: remove the user from their room,
promote the first remaining member when the host left (marking them admin and
emitting `HOST_CHANGED`), emit `USER_LEFT`, stop the game and delete the room
when it became empty, then drop connection and user record. -/
def handleUserDisconnect (s : ServerState) (userId : String) (now : Int) :
    ServerState × List Emit :=
  match getUser s userId with
  | none => (removeConnectionAndUser s userId, [])
  | some user =>
    if user.roomId = "" then (removeConnectionAndUser s userId, [])
    else
      match removeUserFromRoom s user.roomId userId with
      | (none, s1) => (removeConnectionAndUser s1 userId, [])
      | (some updatedRoom, s1) =>
        let hostStep : ServerState × List Emit :=
          match getRoom s1 user.roomId, updatedRoom.members with
          | some room2, newHost :: _ =>
            if room2.host = userId then
              let sA := (setNewHost s1 user.roomId newHost.id).2
              let sB := (updateUser sA newHost.id (fun u => { u with isAdmin := true })).2
              (sB, [Emit.toRoom user.roomId [] (.hostChanged newHost)])
            else (s1, [])
          | _, _ => (s1, [])
        let s2 := hostStep.1
        let evs := hostStep.2 ++ [Emit.toRoom user.roomId [] (.userLeft userId updatedRoom)]
        let final : ServerState × List Emit :=
          if updatedRoom.members.length = 0 then
            let r := stopGame s2 user.roomId now
            (deleteRoom r.2.1 user.roomId, evs ++ r.2.2)
          else (s2, evs)
        (removeConnectionAndUser final.1 userId, final.2)

/-- The member record under which a user joins a room: the `User` object is
spread into `members` (`RoomMember extends User`; the game fields start
absent/zero). -/
def memberOfUser (u : User) : RoomMember :=
  { id := u.id, username := u.username, roomId := u.roomId, isAdmin := u.isAdmin,
    hasAnswered := false, score := 0 }

/-- `WebSocketManager.handleJoinRoom`.  Returns the new state, the caller's
`ws.data.roomId` after the call, and the emitted messages.  The
`cancelScheduledDeletion` bookkeeping has no counterpart in `ServerState`. -/
def handleJoinRoom (s : ServerState) (wsUserId wsRoomId : Option String)
    (rlAllowed : Bool) (inviteCode username : String) :
    ServerState × Option String × List Emit :=
  match wsUserId with
  | none => (s, wsRoomId, [Emit.toCaller (.error .authenticationError)])
  | some userId =>
    if rlAllowed = false then (s, wsRoomId, [Emit.toCaller (.error .rateLimitExceeded)])
    else if wsRoomId.isSome then (s, wsRoomId, [Emit.toCaller (.error .userAlreadyInRoom)])
    else
      match getRoomByInviteCode s inviteCode with
      | none => (s, wsRoomId, [Emit.toCaller (.error .roomNotFound)])
      | some room =>
        if userId ∈ room.kickedUsers then
          (s, wsRoomId, [Emit.toCaller (.error .kickedFromRoom)])
        else if (room.members.find? (fun m => m.username == username)).isSome then
          (s, wsRoomId, [Emit.toCaller (.error .usernameTaken)])
        else if room.settings.maxRoomSize ≤ room.members.length then
          (s, wsRoomId, [Emit.toCaller (.error .roomFull)])
        else
          match updateUser s userId (fun u => { u with username := username, roomId := room.id }) with
          | (none, s1) => (s1, wsRoomId, [Emit.toCaller (.error .userNotFound)])
          | (some updatedUser, s1) =>
            match addUserToRoom s1 room.id (memberOfUser updatedUser) with
            | (none, s2) => (s2, some room.id, [Emit.toCaller (.error .internalError)])
            | (some updatedRoom, s2) =>
              (s2, some room.id,
                [Emit.toCaller (.joinRoomSuccess updatedRoom userId),
                 Emit.toRoom room.id [userId] (.userJoined userId updatedRoom)])

/-- `WebSocketManager.handleKickUser`: host-only; the target is removed via
`kickUserFromRoom`, host succession runs if the host kicked themselves,
`USER_KICKED` is broadcast (excluding the target), a direct `KICKED` goes to
the target, and the target's user record is detached.  The target's
connection is not touched. -/
def handleKickUser (s : ServerState) (wsUserId wsRoomId : Option String)
    (targetId : String) : ServerState × List Emit :=
  match wsUserId, wsRoomId with
  | some userId, some roomId =>
    (match getRoom s roomId with
    | none => (s, [])
    | some room =>
      if room.host ≠ userId then (s, [])
      else
        match getUser s targetId with
        | none => (s, [])
        | some _ =>
          let kicked := kickUserFromRoom s roomId targetId
          let afterRoom : ServerState × List Emit :=
            match kicked with
            | (none, s1) => (s1, [])
            | (some updatedRoom, s1) =>
              let hostStep : ServerState × List Emit :=
                match updatedRoom.members with
                | newHost :: _ =>
                  if room.host = targetId then
                    let sA := (setNewHost s1 roomId newHost.id).2
                    let sB := (updateUser sA newHost.id (fun u => { u with isAdmin := true })).2
                    (sB, [Emit.toRoom roomId [] (.hostChanged newHost)])
                  else (s1, [])
                | [] => (s1, [])
              (hostStep.1,
               hostStep.2 ++ [Emit.toRoom roomId [targetId] (.userKicked targetId updatedRoom)])
          let s2 := afterRoom.1
          let evs := afterRoom.2 ++ [Emit.toUser targetId (.kicked "Kicked by host")]
          let s3 := (updateUser s2 targetId (fun u => { u with roomId := "", isAdmin := false })).2
          (s3, evs))
  | _, _ => (s, [])

/-- The partial settings object of `UPDATE_ROOM_SETTINGS`
(`RoomSettingsSchema.partial()`): absent fields leave the setting unchanged. -/
structure SettingsPatch where
  maxRoomSize : Option Nat := none
  difficulty : Option Difficulty := none
  timePerQuestion : Option Nat := none
deriving DecidableEq, Repr

/-- The spread `{ ...room.settings, ...data.settings }`. -/
def applyPatch (settings : RoomSettings) (patch : SettingsPatch) : RoomSettings :=
  { maxRoomSize := patch.maxRoomSize.getD settings.maxRoomSize,
    difficulty := patch.difficulty.getD settings.difficulty,
    timePerQuestion := patch.timePerQuestion.getD settings.timePerQuestion }

/-- `RoomSettingsSchema` bounds on an update (`maxRoomSize` 2–5,
`timePerQuestion` ∈ {10, 15, 20, 30}); structural validation runs before the
handler. -/
def validPatch (patch : SettingsPatch) : Prop :=
  (∀ n ∈ patch.maxRoomSize, 2 ≤ n ∧ n ≤ 5) ∧
  (∀ t ∈ patch.timePerQuestion, t = 10 ∨ t = 15 ∨ t = 20 ∨ t = 30)

instance (patch : SettingsPatch) : Decidable (validPatch patch) := by
  unfold validPatch; infer_instance

/-- `WebSocketManager.handleUpdateRoomSettings`: host-only spread-update of
the room's settings, then `SETTINGS_UPDATED` broadcast.  No phase check and
no comparison of the new `maxRoomSize` against the current member count. -/
def handleUpdateRoomSettings (s : ServerState) (wsUserId wsRoomId : Option String)
    (patch : SettingsPatch) : ServerState × List Emit :=
  match wsUserId, wsRoomId with
  | some userId, some roomId =>
    (match getRoom s roomId with
    | none => (s, [])
    | some room =>
      if room.host ≠ userId then (s, [])
      else
        let updated := { room with settings := applyPatch room.settings patch }
        (setRoom s updated, [Emit.toRoom roomId [] (.settingsUpdated updated.settings)]))
  | _, _ => (s, [])

/-! ## Rate limiter (`src/lib/utils/security/rate-limiter.ts`,
`SlidingWindowCounter`)

One key's `WindowData`; the surrounding `Map` is immaterial per key.  The
floating-point expressions are embedded over `ℚ`; `Math.floor` division on
the (integer) millisecond clock is `Int.fdiv`. -/

structure WindowData where
  currentCount : Nat
  previousCount : Nat
  currentWindowStart : Int
  windowSizeMs : Int
  lastTouchedMs : Int
deriving DecidableEq, Repr

/-- `SlidingWindowCounter.getOrUpdateWindow` (lines 93–117): fresh window when
absent or sized differently; rollover when at least one full window elapsed,
carrying the old `currentCount` into `previousCount` exactly when one window
elapsed. -/
def getOrUpdateWindow (w? : Option WindowData) (windowSizeMs now : Int) : WindowData :=
  let currentWindowStart := (Int.fdiv now windowSizeMs) * windowSizeMs
  match w? with
  | none =>
    { currentCount := 0, previousCount := 0, currentWindowStart := currentWindowStart,
      windowSizeMs := windowSizeMs, lastTouchedMs := now }
  | some w =>
    if w.windowSizeMs ≠ windowSizeMs then
      { currentCount := 0, previousCount := 0, currentWindowStart := currentWindowStart,
        windowSizeMs := windowSizeMs, lastTouchedMs := now }
    else if w.currentWindowStart + windowSizeMs ≤ now then
      let windowsElapsed := Int.fdiv (now - w.currentWindowStart) windowSizeMs
      { currentCount := 0,
        previousCount := if windowsElapsed = 1 then w.currentCount else 0,
        currentWindowStart := currentWindowStart,
        windowSizeMs := windowSizeMs, lastTouchedMs := w.lastTouchedMs }
    else w

/-- `SlidingWindowCounter.calculateWeightedCount` (lines 119–125). -/
def calculateWeightedCount (w : WindowData) (now : Int) : ℚ :=
  let elapsedInCurrentWindow : ℚ := (now : ℚ) - (w.currentWindowStart : ℚ)
  let previousWindowWeight : ℚ := 1 - elapsedInCurrentWindow / (w.windowSizeMs : ℚ)
  (w.currentCount : ℚ) + max 0 (min 1 previousWindowWeight) * (w.previousCount : ℚ)

/-- `SlidingWindowCounter.consume` (lines 58–91): reject (leaving the updated
window stored) when the weighted count reached the limit, else admit and
increment `currentCount`. -/
def consume (w? : Option WindowData) (limit : Nat) (windowSizeMs now : Int) :
    Bool × WindowData :=
  let w := getOrUpdateWindow w? windowSizeMs now
  let weightedCount := calculateWeightedCount w now
  if (limit : ℚ) ≤ weightedCount then (false, w)
  else (true, { w with currentCount := w.currentCount + 1, lastTouchedMs := now })

/-! ## Input sanitizer and validation
(`src/lib/utils/security/input-sanitizer.ts`, `src/lib/utils/validation.ts`)

Strings are worked on as character lists; JavaScript's `\s`, `trim` and
`toLowerCase`/`toUpperCase` are taken over the character predicates of the
ASCII/Unicode whitespace and case functions. -/

def isJsWhitespace (c : Char) : Bool := c.isWhitespace

/-- `String.prototype.trim`. -/
def jsTrim (cs : List Char) : List Char :=
  ((cs.dropWhile isJsWhitespace).reverse.dropWhile isJsWhitespace).reverse

/-- `replace(/\s+/g, ' ')`: every maximal whitespace run becomes one space.
The flag says whether the previous character was part of a run already
replaced. -/
def collapseWsAux : Bool → List Char → List Char
  | _, [] => []
  | prevWs, c :: cs =>
    if isJsWhitespace c then
      if prevWs then collapseWsAux true cs else ' ' :: collapseWsAux true cs
    else c :: collapseWsAux false cs

/-- Modelled from the spec: DOMPurify (external dependency) configured with
`ALLOWED_TAGS: []`, `ALLOWED_ATTR: []`, `KEEP_CONTENT: true` strips HTML
markup and keeps text content ("HTML-stripped", spec §4.3); embedded as a
tag stripper.  The flag is true inside a tag. -/
def stripTagsAux : Bool → List Char → List Char
  | _, [] => []
  | true, c :: cs => if c = '>' then stripTagsAux false cs else stripTagsAux true cs
  | false, c :: cs => if c = '<' then stripTagsAux true cs else c :: stripTagsAux false cs

/-- `InputSanitizer.sanitizeUsername` (lines 14–21): trim, collapse
whitespace, `substring(0, 20)`, then DOMPurify. -/
def sanitizeUsername (input : String) : String :=
  let cleaned := (collapseWsAux false (jsTrim input.toList)).take 20
  String.mk (stripTagsAux false cleaned)

/-- The character class of `REGEX_PATTERNS.USERNAME`
(`/^[a-zA-Z0-9\s\-_\.]+$/`, `game-constants.ts`). -/
def usernameCharOk (c : Char) : Bool :=
  c.isAlpha || c.isDigit || isJsWhitespace c || c = '-' || c = '_' || c = '.'

/-- `INAPPROPRIATE_WORDS` (`game-constants.ts`). -/
def inappropriateWords : List String :=
  ["admin", "moderator", "bot", "system", "null", "undefined"]

/-- `String.prototype.includes`: `pat` occurs as a contiguous substring. -/
def containsSub (pat : List Char) : List Char → Bool
  | [] => pat.isPrefixOf []
  | c :: cs => pat.isPrefixOf (c :: cs) || containsSub pat cs

/-- Acceptance of `UsernameSchema` (`validation.ts` lines 20–27): length
2–30, the username character class, non-blank after trim, and no reserved
word occurs in the lowercased value.  (Its `transform` is
`sanitizeUsername`.) -/
def acceptsUsername (s : String) : Bool :=
  decide (2 ≤ s.length) && decide (s.length ≤ 30) &&
  s.toList.all usernameCharOk &&
  decide (0 < (jsTrim s.toList).length) &&
  inappropriateWords.all (fun w => !(containsSub w.toList (s.toList.map Char.toLower)))

/-- `InviteCodeSchema = z.string().length(6)` (`validation.ts` line 40):
acceptance checks the length only. -/
def acceptsInviteCode (s : String) : Bool :=
  decide (s.length = 6)

/-- Whether a string consists of uppercase alphanumerics only (the spec's
stated invite-code alphabet). -/
def isUpperAlnum (s : String) : Bool :=
  s.toList.all (fun c => c.isUpper || c.isDigit)

/-! ## Invite-code generation (`RoomManager.create`, line 37:
`nanoid(6).toUpperCase()`) -/

/-- Modelled from the spec's external-dependency surface: `nanoid`'s
documented url alphabet, from which `nanoid(n)` draws each character
uniformly.  Randomness becomes the explicit pick stream. -/
def nanoidAlphabet : List Char :=
  "useandom-26T198340PX75pxJACKVERYMINDBUSHWOLF_GQZbfghjklqvwyzrict".toList

/-- `nanoid(n)` with explicit random picks. -/
def nanoid (n : Nat) (picks : Nat → Fin 64) : String :=
  String.mk ((List.range n).map (fun i => nanoidAlphabet.getD (picks i) 'u'))

/-- `String.prototype.toUpperCase`: per-character uppercase (the relevant
behaviour on the nanoid alphabet). -/
def jsToUpper (s : String) : String := String.mk (s.toList.map Char.toUpper)

/-- `RoomManager.create` (`room-management.ts` lines 9–53): waiting game
state, the host as sole member, `inviteCode := nanoid(6).toUpperCase()`
without any uniqueness check against existing rooms.  (`kickedUsers` starts
empty on the current room shape.) -/
def createRoom (s : ServerState) (roomId : String) (host : RoomMember)
    (settings : RoomSettings) (picks : Nat → Fin 64) : ServerState :=
  let gameState : GameState :=
    { isActive := false, phase := .waiting, currentQuestion := none,
      answers := [], answerHistory := [], currentQuestionIndex := 0,
      totalQuestions := difficultyQuestionCount settings.difficulty,
      difficulty := settings.difficulty,
      gameStartTime := none, gameEndTime := none,
      usedCountries := [], leaderboard := [] }
  let room : Room :=
    { id := roomId, name := "", host := host.id,
      inviteCode := jsToUpper (nanoid 6 picks),
      gameState := gameState, members := [host], settings := settings,
      kickedUsers := [] }
  setRoom s room

/-! ## Reference definitions written from the spec's words (for the
leaderboard refinement claim). -/

/-- Reference leaderboard row, following the spec §4.2.5 word for word:
"aggregate per user {score = sum(pointsAwarded), correctAnswers =
count(isCorrect), averageTime = mean(timeToAnswer)}; include members with no
answers with zeros". -/
def specLeaderboardEntry (member : RoomMember) (history : List GameAnswer) :
    LeaderboardEntry :=
  let mine := history.filter (fun a => a.userId == member.id)
  if mine.length = 0 then
    { userId := member.id, username := member.username,
      score := 0, correctAnswers := 0, averageTime := 0 }
  else
    { userId := member.id, username := member.username,
      score := (mine.map (·.pointsAwarded)).sum,
      correctAnswers := (mine.filter (·.isCorrect)).length,
      averageTime := (mine.map (fun a => (a.timeToAnswer : ℚ))).sum / (mine.length : ℚ) }

/-- Reference leaderboard per the spec: the rows in member (insertion) order,
sorted by score descending, stable. -/
def specLeaderboard (room : Room) (history : List GameAnswer) : List LeaderboardEntry :=
  sortByScoreDesc (room.members.map (fun m => specLeaderboardEntry m history))

/-! ## The reachable-state step relation

Every mutation of the room store performed anywhere in the server goes
through the operations below (the composite handlers are included as single
steps).  `validSettings` / `validPatch` record that `CREATE_ROOM` and
`UPDATE_ROOM_SETTINGS` payloads pass `RoomSettingsSchema` before reaching the
managers. -/

/-- `RoomSettingsSchema` bound on a full settings object:
`maxRoomSize` ∈ [2, 5]. -/
def validSettings (settings : RoomSettings) : Prop :=
  2 ≤ settings.maxRoomSize ∧ settings.maxRoomSize ≤ 5

instance (settings : RoomSettings) : Decidable (validSettings settings) := by
  unfold validSettings; infer_instance

/-- The member-list rewrites of `GameManager.endGame` (score persistence)
and `resetGameState`: `roomsManager.update(roomId, { members:
room.members.map(…) })`. -/
def mapRoomMembers (s : ServerState) (roomId : String) (f : RoomMember → RoomMember) :
    ServerState :=
  (updateRoom s roomId (fun r => { r with members := r.members.map f })).2

/-- Number of members of the room stored under `roomId` (0 when absent). -/
def memberCount (s : ServerState) (roomId : String) : Nat :=
  ((getRoom s roomId).map (fun r => r.members.length)).getD 0

/-- `settings.maxRoomSize` of the room stored under `roomId` (0 when absent). -/
def maxSizeOf (s : ServerState) (roomId : String) : Nat :=
  ((getRoom s roomId).map (fun r => r.settings.maxRoomSize)).getD 0

/-- One server operation. -/
inductive Step : ServerState → ServerState → Prop
  | createUserStep (s : ServerState) (userId username : String) :
      Step s (createUser s userId username)
  | createRoomStep (s : ServerState) (roomId : String) (host : RoomMember)
      (settings : RoomSettings) (picks : Nat → Fin 64) (hval : validSettings settings) :
      Step s (createRoom s roomId host settings picks)
  | joinRoomStep (s : ServerState) (wsUserId wsRoomId : Option String)
      (rlAllowed : Bool) (inviteCode username : String) :
      Step s (handleJoinRoom s wsUserId wsRoomId rlAllowed inviteCode username).1
  | addUserStep (s : ServerState) (roomId : String) (user : RoomMember) :
      Step s (addUserToRoom s roomId user).2
  | removeUserStep (s : ServerState) (roomId userId : String) :
      Step s (removeUserFromRoom s roomId userId).2
  | kickFromRoomStep (s : ServerState) (roomId userId : String) :
      Step s (kickUserFromRoom s roomId userId).2
  | kickUserStep (s : ServerState) (wsUserId wsRoomId : Option String) (targetId : String) :
      Step s (handleKickUser s wsUserId wsRoomId targetId).1
  | setHostStep (s : ServerState) (roomId newHostId : String) :
      Step s (setNewHost s roomId newHostId).2
  | updateSettingsStep (s : ServerState) (wsUserId wsRoomId : Option String)
      (patch : SettingsPatch) (hval : validPatch patch) :
      Step s (handleUpdateRoomSettings s wsUserId wsRoomId patch).1
  | updateGameStateStep (s : ServerState) (roomId : String) (f : GameState → GameState) :
      Step s (updateGameState s roomId f).2
  | mapMembersStep (s : ServerState) (roomId : String) (f : RoomMember → RoomMember) :
      Step s (mapRoomMembers s roomId f)
  | submitAnswerStep (s : ServerState) (roomId userId answer : String) (now : Int) :
      Step s (submitAnswer s roomId userId answer now).1
  | endQuestionStep (s : ServerState) (roomId : String) :
      Step s (endQuestion s roomId).1
  | resetGameStep (s : ServerState) (roomId : String) (now : Int) :
      Step s (resetGameState s roomId now)
  | restartGameStep (s : ServerState) (roomId userId : String) (now : Int) :
      Step s (restartGame s roomId userId now).2.1
  | stopGameStep (s : ServerState) (roomId : String) (now : Int) :
      Step s (stopGame s roomId now).2.1
  | disconnectStep (s : ServerState) (userId : String) (now : Int) :
      Step s (handleUserDisconnect s userId now).1
  | deleteRoomStep (s : ServerState) (roomId : String) :
      Step s (deleteRoom s roomId)
  | deleteUserStep (s : ServerState) (userId : String) :
      Step s (deleteUser s userId)
  | updateUserStep (s : ServerState) (userId : String) (f : User → User) :
      Step s (updateUser s userId f).2

/-- The empty boot state. -/
def initialState : ServerState :=
  { rooms := [], users := [], connections := [], questionTimers := [], resultTimers := [] }

/-- States the server can be in: reachable from boot by server operations. -/
inductive Reachable : ServerState → Prop
  | init : Reachable initialState
  | step {s s' : ServerState} : Reachable s → Step s s' → Reachable s'

/-! ## Sample fixtures (used by the concrete witnesses) -/

def qSample : GameQuestion :=
  { questionNumber := 1, country := ⟨"FR", "France"⟩,
    options := [⟨"FR", "France"⟩, ⟨"DE", "Germany"⟩, ⟨"IT", "Italy"⟩, ⟨"ES", "Spain"⟩],
    correctAnswer := "FR", startTime := 1000, endTime := 11000 }

def memberA : RoomMember := ⟨"A", "alice", "r1", true, false, 0⟩
def memberB : RoomMember := ⟨"B", "bob", "r1", false, false, 0⟩
def memberC : RoomMember := ⟨"C", "carol", "r1", false, false, 0⟩

def userA : User := ⟨"A", "alice", "r1", true⟩
def userB : User := ⟨"B", "bob", "r1", false⟩
def userC : User := ⟨"C", "carol", "", false⟩

/-- A game state in the `question` phase with no answers yet. -/
def gsQuestion : GameState :=
  { isActive := true, phase := .question, currentQuestion := some qSample,
    answers := [], answerHistory := [], currentQuestionIndex := 1,
    totalQuestions := 15, difficulty := .easy, gameStartTime := some 500,
    gameEndTime := none, usedCountries := ["FR"], leaderboard := [] }

def roomQ : Room :=
  { id := "r1", name := "", host := "A", inviteCode := "ABC123",
    gameState := gsQuestion, members := [memberA, memberB],
    settings := ⟨2, .easy, 10⟩, kickedUsers := [] }

def sQ : ServerState :=
  { rooms := [roomQ], users := [userA, userB, userC],
    connections := ["A", "B", "C"], questionTimers := ["r1"], resultTimers := [] }

/-- Alice's recorded first answer for `qSample`. -/
def gaA : GameAnswer := ⟨"A", "alice", "FR", 200, true, 1, 1200⟩

/-- `roomQ` after Alice answered. -/
def roomQ2 : Room :=
  { roomQ with gameState :=
      { gsQuestion with answers := [gaA], answerHistory := [gaA] } }

def sQ2 : ServerState := { sQ with rooms := [roomQ2] }

/-- A waiting, inactive game state (as after room creation). -/
def gsWaiting : GameState :=
  { isActive := false, phase := .waiting, currentQuestion := none,
    answers := [], answerHistory := [], currentQuestionIndex := 0,
    totalQuestions := 15, difficulty := .easy, gameStartTime := none,
    gameEndTime := none, usedCountries := [], leaderboard := [] }

/-- `roomQ` with no game running. -/
def roomW : Room := { roomQ with gameState := gsWaiting }

def sW : ServerState :=
  { rooms := [roomW], users := [userA, userB, userC],
    connections := ["A", "B", "C"], questionTimers := [], resultTimers := [] }

/-- A pick stream that always selects index 8 of the nanoid alphabet, the
character `'-'`. -/
def picksDash : Nat → Fin 64 := fun _ => (8 : Fin 64)

/-! ### A run that overfills a room relative to its capacity

Create a 3-person room, fill it, then have the host shrink `maxRoomSize`
to 2 through `UPDATE_ROOM_SETTINGS` (which performs no member-count
comparison). -/

def c4settings : RoomSettings :=
  { maxRoomSize := 3, difficulty := .easy, timePerQuestion := 10 }

def c4host : RoomMember := ⟨"A", "alice", "room", true, false, 0⟩
def c4memB : RoomMember := ⟨"B", "bob", "room", false, false, 0⟩
def c4memC : RoomMember := ⟨"C", "carol", "room", false, false, 0⟩

def c4patch : SettingsPatch := { maxRoomSize := some 2 }

def c4s1 : ServerState := createRoom initialState "room" c4host c4settings picksDash
def c4s2 : ServerState := (addUserToRoom c4s1 "room" c4memB).2
def c4s3 : ServerState := (addUserToRoom c4s2 "room" c4memC).2
def c4bad : ServerState :=
  (handleUpdateRoomSettings c4s3 (some "A") (some "room") c4patch).1

/-! ## Store lemmas -/

theorem list_find?_map_eq {α : Type} (f : α → α) (p : α → Bool)
    (h : ∀ a, p (f a) = p a) (l : List α) :
    (l.map f).find? p = (l.find? p).map f := by
  induction l with
  | nil => rfl
  | cons a l ih =>
    by_cases hpa : p a = true
    · simp [List.find?_cons, h, hpa]
    · simp only [Bool.not_eq_true] at hpa
      simp [List.find?_cons, h, hpa, ih]

theorem list_find?_append_some {α : Type} {p : α → Bool} {l1 : List α} {a : α}
    (l2 : List α) (h : l1.find? p = some a) : (l1 ++ l2).find? p = some a := by
  induction l1 with
  | nil => simp [List.find?] at h
  | cons b l ih =>
    by_cases hpb : p b = true
    · simp_all [List.find?_cons]
    · simp only [Bool.not_eq_true] at hpb
      simp_all [List.find?_cons]

theorem list_find?_append_none {α : Type} {p : α → Bool} {l1 : List α}
    (l2 : List α) (h : l1.find? p = none) : (l1 ++ l2).find? p = l2.find? p := by
  induction l1 with
  | nil => rfl
  | cons b l ih =>
    by_cases hpb : p b = true
    · simp_all [List.find?_cons]
    · simp only [Bool.not_eq_true] at hpb
      simp_all [List.find?_cons]

theorem findRoom_mapSetRoom (rooms : List Room) (room : Room) (roomId : String) :
    findRoom (mapSetRoom rooms room) roomId =
      if roomId = room.id then some room else findRoom rooms roomId := by
  unfold mapSetRoom findRoom
  cases hfind : rooms.find? (fun r => r.id == room.id) with
  | some r0 =>
    rw [if_pos (by simp)]
    have hpres : ∀ r : Room,
        ((if r.id == room.id then room else r).id == roomId) = (r.id == roomId) := by
      intro r
      by_cases h : (r.id == room.id) = true
      · have hr : r.id = room.id := by simpa using h
        simp [h, hr]
      · simp [h]
    rw [list_find?_map_eq _ _ hpres]
    by_cases hid : roomId = room.id
    · subst hid
      rw [if_pos rfl, hfind]
      have h0' : r0.id = room.id := by simpa using List.find?_some hfind
      simp [Option.map_some, h0']
    · rw [if_neg hid]
      cases hfound : rooms.find? (fun r => r.id == roomId) with
      | none => simp
      | some r1 =>
        have h1' : r1.id = roomId := by simpa using List.find?_some hfound
        have hne : ¬ r1.id = room.id := by
          rw [h1']
          exact hid
        simp [Option.map_some, hne]
  | none =>
    rw [if_neg (by simp)]
    by_cases hid : roomId = room.id
    · subst hid
      rw [if_pos rfl, list_find?_append_none _ hfind]
      simp [List.find?]
    · rw [if_neg hid]
      cases hfound : rooms.find? (fun r => r.id == roomId) with
      | none =>
        rw [list_find?_append_none _ hfound]
        have hne : (room.id == roomId) = false := by
          simpa using fun h : room.id = roomId => hid (h ▸ rfl)
        simp [List.find?, hne]
      | some r1 => exact list_find?_append_some _ hfound

theorem findUser_mapSetUser (users : List User) (user : User) (userId : String) :
    findUser (mapSetUser users user) userId =
      if userId = user.id then some user else findUser users userId := by
  unfold mapSetUser findUser
  cases hfind : users.find? (fun u => u.id == user.id) with
  | some u0 =>
    rw [if_pos (by simp)]
    have hpres : ∀ u : User,
        ((if u.id == user.id then user else u).id == userId) = (u.id == userId) := by
      intro u
      by_cases h : (u.id == user.id) = true
      · have hu : u.id = user.id := by simpa using h
        simp [h, hu]
      · simp [h]
    rw [list_find?_map_eq _ _ hpres]
    by_cases hid : userId = user.id
    · subst hid
      rw [if_pos rfl, hfind]
      have h0' : u0.id = user.id := by simpa using List.find?_some hfind
      simp [Option.map_some, h0']
    · rw [if_neg hid]
      cases hfound : users.find? (fun u => u.id == userId) with
      | none => simp
      | some u1 =>
        have h1' : u1.id = userId := by simpa using List.find?_some hfound
        have hne : ¬ u1.id = user.id := by
          rw [h1']
          exact hid
        simp [Option.map_some, hne]
  | none =>
    rw [if_neg (by simp)]
    by_cases hid : userId = user.id
    · subst hid
      rw [if_pos rfl, list_find?_append_none _ hfind]
      simp [List.find?]
    · rw [if_neg hid]
      cases hfound : users.find? (fun u => u.id == userId) with
      | none =>
        rw [list_find?_append_none _ hfound]
        have hne : (user.id == userId) = false := by
          simpa using fun h : user.id = userId => hid (h ▸ rfl)
        simp [List.find?, hne]
      | some u1 => exact list_find?_append_some _ hfound

/-- A found room carries the looked-up id. -/
theorem getRoom_id {s : ServerState} {roomId : String} {room : Room}
    (h : getRoom s roomId = some room) : room.id = roomId := by
  have := List.find?_some h
  simpa using this

/-- A found user carries the looked-up id. -/
theorem getUser_id {s : ServerState} {userId : String} {user : User}
    (h : getUser s userId = some user) : user.id = userId := by
  have := List.find?_some h
  simpa using this

theorem getRoom_setRoom (s : ServerState) (room : Room) (roomId : String) :
    getRoom (setRoom s room) roomId =
      if roomId = room.id then some room else getRoom s roomId :=
  findRoom_mapSetRoom s.rooms room roomId

theorem getUser_setUser (s : ServerState) (user : User) (userId : String) :
    getUser (setUser s user) userId =
      if userId = user.id then some user else getUser s userId :=
  findUser_mapSetUser s.users user userId

/-! ## Operation lemmas -/

theorem getRoom_clearTimers (s : ServerState) (roomId id : String) :
    getRoom (clearTimers s roomId) id = getRoom s id := rfl

theorem updateGameState_state_eq (s : ServerState) (roomId : String)
    (f : GameState → GameState) (room : Room) (hroom : getRoom s roomId = some room) :
    (updateGameState s roomId f).2 = setRoom s { room with gameState := f room.gameState } := by
  unfold updateGameState
  rw [hroom]

theorem getRoom_updateGameState_self (s : ServerState) (roomId : String)
    (f : GameState → GameState) (room : Room) (hroom : getRoom s roomId = some room) :
    getRoom (updateGameState s roomId f).2 roomId =
      some { room with gameState := f room.gameState } := by
  rw [updateGameState_state_eq s roomId f room hroom, getRoom_setRoom]
  have hid : room.id = roomId := getRoom_id hroom
  simp [hid]

theorem updateGameState_questionTimers (s : ServerState) (roomId : String)
    (f : GameState → GameState) :
    (updateGameState s roomId f).2.questionTimers = s.questionTimers := by
  unfold updateGameState
  cases getRoom s roomId <;> rfl

theorem updateGameState_resultTimers (s : ServerState) (roomId : String)
    (f : GameState → GameState) :
    (updateGameState s roomId f).2.resultTimers = s.resultTimers := by
  unfold updateGameState
  cases getRoom s roomId <;> rfl

theorem computeLeaderboard_members_congr (r1 r2 : Room) (h : r1.members = r2.members)
    (hist : List GameAnswer) :
    computeLeaderboardFromHistory r1 hist = computeLeaderboardFromHistory r2 hist := by
  unfold computeLeaderboardFromHistory
  rw [h]

theorem computeLeaderboard_gameState_update (room : Room) (gs : GameState)
    (hist : List GameAnswer) :
    computeLeaderboardFromHistory { room with gameState := gs } hist =
      computeLeaderboardFromHistory room hist := rfl

theorem not_mem_filter_ne_self (l : List String) (x : String) :
    x ∉ l.filter (fun r => r != x) := by
  intro h
  have := (List.mem_filter.mp h).2
  simp at this

/-- What `endQuestion` does when the room and its current question exist:
the room moves to `results` with the leaderboard cached from the answer
history, the question timer for the room is cancelled, and exactly one
`QUESTION_RESULTS` broadcast is emitted. -/
theorem endQuestion_spec (s : ServerState) (roomId : String) (room : Room)
    (question : GameQuestion) (hroom : getRoom s roomId = some room)
    (hq : room.gameState.currentQuestion = some question) :
    getRoom (endQuestion s roomId).1 roomId =
      some { room with gameState :=
              { room.gameState with
                  phase := .results,
                  leaderboard := computeLeaderboardFromHistory room
                    room.gameState.answerHistory } } ∧
    (endQuestion s roomId).1.questionTimers = s.questionTimers.filter (fun r => r != roomId) ∧
    (endQuestion s roomId).2 =
      [Emit.toRoom roomId [] (.questionResults question.correctAnswer question.country
        room.gameState.answers (computeLeaderboardFromHistory room room.gameState.answerHistory))] := by
  unfold endQuestion
  rw [hroom]
  dsimp only
  rw [hq]
  dsimp only
  have hroom1 : getRoom (clearTimers s roomId) roomId = some room := hroom
  refine ⟨?_, ?_, rfl⟩
  · rw [← hq]
    exact getRoom_updateGameState_self _ roomId _ room hroom1
  · rw [updateGameState_questionTimers]
    rfl

/-! ## Claim C1 — SUBMIT_ANSWER records and scores an answer -/

/-- C1: a first answer in the `question` phase is recorded with
`timeToAnswer = now − startTime`, `isCorrect = (answer == correctAnswer)`,
`pointsAwarded = CORRECT_POINT_COST` iff correct; it is appended to the round
answers and the history, the leaderboard is recomputed from the new history;
and when the appended answer makes the count reach the member count,
`endQuestion` runs at once (phase `results`, question timer cancelled,
`QUESTION_RESULTS` following `ANSWER_SUBMITTED`), else the phase stays
`question` with only `ANSWER_SUBMITTED` emitted. -/
theorem submitAnswer_spec (s : ServerState) (roomId userId answer : String) (now : Int)
    (room : Room) (user : User) (question : GameQuestion)
    (hroom : getRoom s roomId = some room)
    (huser : getUser s userId = some user)
    (hphase : room.gameState.phase = .question)
    (hq : room.gameState.currentQuestion = some question)
    (_hmem : userId ∈ room.members.map RoomMember.id)
    (hnew : ∀ a ∈ room.gameState.answers, a.userId ≠ userId) :
    ∃ ga room',
      ga = ({ userId := userId, username := user.username, answer := answer,
              timeToAnswer := now - question.startTime,
              isCorrect := (answer == question.correctAnswer),
              pointsAwarded :=
                if (answer == question.correctAnswer) = true then CORRECT_POINT_COST else 0,
              timestamp := now } : GameAnswer) ∧
      getRoom (submitAnswer s roomId userId answer now).1 roomId = some room' ∧
      room'.gameState.answers = room.gameState.answers ++ [ga] ∧
      room'.gameState.answerHistory = room.gameState.answerHistory ++ [ga] ∧
      room'.gameState.leaderboard =
        computeLeaderboardFromHistory room (room.gameState.answerHistory ++ [ga]) ∧
      (submitAnswer s roomId userId answer now).2 =
        Emit.toRoom roomId [] (.answerSubmitted userId user.username
            (room.gameState.answers.length + 1) room.members.length ga.pointsAwarded
            (((room.gameState.answerHistory ++ [ga]).filter
                (fun a => a.userId == userId)).map (·.pointsAwarded)).sum) ::
          (if room.gameState.answers.length + 1 = room.members.length then
            [Emit.toRoom roomId [] (.questionResults question.correctAnswer question.country
              (room.gameState.answers ++ [ga])
              (computeLeaderboardFromHistory room (room.gameState.answerHistory ++ [ga])))]
          else []) ∧
      (if room.gameState.answers.length + 1 = room.members.length then
        room'.gameState.phase = .results ∧
          roomId ∉ (submitAnswer s roomId userId answer now).1.questionTimers
      else room'.gameState.phase = .question) := by
  have hphase' : ¬(room.gameState.phase ≠ GamePhase.question) := by simp [hphase]
  have hfind : (room.gameState.answers.find? (fun a => a.userId == userId)) = none := by
    rw [List.find?_eq_none]
    intro a ha
    simpa using hnew a ha
  unfold submitAnswer
  rw [hroom, huser]
  dsimp only
  rw [hq]
  dsimp only
  rw [if_neg hphase', hfind]
  simp only [Option.isSome_none, Bool.false_eq_true, if_false]
  simp only [List.length_append, List.length_singleton]
  by_cases hfull : room.gameState.answers.length + 1 = room.members.length
  · simp only [if_pos hfull]
    have hroom1 := getRoom_updateGameState_self s roomId
      (fun gs => { gs with
                    answers := room.gameState.answers ++
                      [{ userId := userId, username := user.username, answer := answer,
                          timeToAnswer := now - question.startTime,
                          isCorrect := (answer == question.correctAnswer),
                          pointsAwarded :=
                            if (answer == question.correctAnswer) = true then
                              CORRECT_POINT_COST else 0,
                          timestamp := now }],
                    answerHistory := room.gameState.answerHistory ++
                      [{ userId := userId, username := user.username, answer := answer,
                          timeToAnswer := now - question.startTime,
                          isCorrect := (answer == question.correctAnswer),
                          pointsAwarded :=
                            if (answer == question.correctAnswer) = true then
                              CORRECT_POINT_COST else 0,
                          timestamp := now }],
                    leaderboard := computeLeaderboardFromHistory room
                      (room.gameState.answerHistory ++
                        [{ userId := userId, username := user.username, answer := answer,
                            timeToAnswer := now - question.startTime,
                            isCorrect := (answer == question.correctAnswer),
                            pointsAwarded :=
                              if (answer == question.correctAnswer) = true then
                                CORRECT_POINT_COST else 0,
                            timestamp := now }]) })
      room hroom
    obtain ⟨he1, he2, he3⟩ := endQuestion_spec _ roomId _ question hroom1 hq
    refine ⟨_, _, rfl, he1, rfl, rfl, ?_, ?_, ?_⟩
    · dsimp only
      simp only [computeLeaderboard_gameState_update]
    · rw [he3]
      dsimp only
      simp only [computeLeaderboard_gameState_update]
    · refine ⟨rfl, ?_⟩
      rw [he2, updateGameState_questionTimers]
      exact not_mem_filter_ne_self _ _
  · simp only [if_neg hfull]
    have hroom1 := getRoom_updateGameState_self s roomId
      (fun gs => { gs with
                    answers := room.gameState.answers ++
                      [{ userId := userId, username := user.username, answer := answer,
                          timeToAnswer := now - question.startTime,
                          isCorrect := (answer == question.correctAnswer),
                          pointsAwarded :=
                            if (answer == question.correctAnswer) = true then
                              CORRECT_POINT_COST else 0,
                          timestamp := now }],
                    answerHistory := room.gameState.answerHistory ++
                      [{ userId := userId, username := user.username, answer := answer,
                          timeToAnswer := now - question.startTime,
                          isCorrect := (answer == question.correctAnswer),
                          pointsAwarded :=
                            if (answer == question.correctAnswer) = true then
                              CORRECT_POINT_COST else 0,
                          timestamp := now }],
                    leaderboard := computeLeaderboardFromHistory room
                      (room.gameState.answerHistory ++
                        [{ userId := userId, username := user.username, answer := answer,
                            timeToAnswer := now - question.startTime,
                            isCorrect := (answer == question.correctAnswer),
                            pointsAwarded :=
                              if (answer == question.correctAnswer) = true then
                                CORRECT_POINT_COST else 0,
                            timestamp := now }]) })
      room hroom
    exact ⟨_, _, rfl, hroom1, rfl, rfl, rfl, rfl, hphase⟩

/-- C1 witness: in `sQ` (two members, `question` phase, no answers yet) Alice
submits the correct "FR" at `now = 2000`; all hypotheses hold concretely and
the recorded answer carries time 1000, correctness and 1 point, with the
phase still `question` (1 of 2 answered). -/
theorem submitAnswer_spec_witness :
    getRoom sQ "r1" = some roomQ ∧ getUser sQ "A" = some userA ∧
    roomQ.gameState.phase = .question ∧
    roomQ.gameState.currentQuestion = some qSample ∧
    "A" ∈ roomQ.members.map RoomMember.id ∧
    (∃ ga room',
      ga = ({ userId := "A", username := userA.username, answer := "FR",
              timeToAnswer := 2000 - qSample.startTime,
              isCorrect := ("FR" == qSample.correctAnswer),
              pointsAwarded :=
                if ("FR" == qSample.correctAnswer) = true then CORRECT_POINT_COST else 0,
              timestamp := 2000 } : GameAnswer) ∧
      getRoom (submitAnswer sQ "r1" "A" "FR" 2000).1 "r1" = some room' ∧
      room'.gameState.answers = roomQ.gameState.answers ++ [ga] ∧
      room'.gameState.answerHistory = roomQ.gameState.answerHistory ++ [ga] ∧
      room'.gameState.leaderboard =
        computeLeaderboardFromHistory roomQ (roomQ.gameState.answerHistory ++ [ga]) ∧
      (submitAnswer sQ "r1" "A" "FR" 2000).2 =
        Emit.toRoom "r1" [] (.answerSubmitted "A" userA.username
            (roomQ.gameState.answers.length + 1) roomQ.members.length ga.pointsAwarded
            (((roomQ.gameState.answerHistory ++ [ga]).filter
                (fun a => a.userId == "A")).map (·.pointsAwarded)).sum) ::
          (if roomQ.gameState.answers.length + 1 = roomQ.members.length then
            [Emit.toRoom "r1" [] (.questionResults qSample.correctAnswer qSample.country
              (roomQ.gameState.answers ++ [ga])
              (computeLeaderboardFromHistory roomQ (roomQ.gameState.answerHistory ++ [ga])))]
          else []) ∧
      (if roomQ.gameState.answers.length + 1 = roomQ.members.length then
        room'.gameState.phase = .results ∧
          "r1" ∉ (submitAnswer sQ "r1" "A" "FR" 2000).1.questionTimers
      else room'.gameState.phase = .question)) :=
  ⟨by decide, by decide, by decide, by decide, by decide,
    submitAnswer_spec sQ "r1" "A" "FR" 2000 roomQ userA qSample
      (by decide) (by decide) (by decide) (by decide) (by decide) (by decide)⟩

/-! ## Claim C2 — idempotence of SUBMIT_ANSWER -/

/-- C2: once a user has an answer recorded for the current question, a second
`submitAnswer` by the same user returns the state unchanged and emits
nothing — whatever the phase, question or user-store contents have become in
the meantime. -/
theorem submitAnswer_idempotent (s : ServerState) (roomId userId answer : String)
    (now : Int) (room : Room) (hroom : getRoom s roomId = some room)
    (ga : GameAnswer) (hga : ga ∈ room.gameState.answers) (hid : ga.userId = userId) :
    submitAnswer s roomId userId answer now = (s, []) := by
  unfold submitAnswer
  rw [hroom]
  cases hu : getUser s userId with
  | none => rfl
  | some user =>
    dsimp only
    cases hq : room.gameState.currentQuestion with
    | none => rfl
    | some question =>
      dsimp only
      by_cases hph : room.gameState.phase ≠ GamePhase.question
      · rw [if_pos hph]
      · rw [if_neg hph]
        have hfind : (room.gameState.answers.find? (fun a => a.userId == userId)).isSome = true := by
          rw [List.find?_isSome]
          exact ⟨ga, hga, by simp [hid]⟩
        rw [if_pos hfind]

/-- C2 witness: Alice already answered `qSample` in `sQ2`; her second
submission (even with a different answer) changes nothing and emits
nothing. -/
theorem submitAnswer_idempotent_witness :
    getRoom sQ2 "r1" = some roomQ2 ∧ gaA ∈ roomQ2.gameState.answers ∧
      submitAnswer sQ2 "r1" "A" "DE" 2000 = (sQ2, []) :=
  ⟨by decide, by decide,
    submitAnswer_idempotent sQ2 "r1" "A" "DE" 2000 roomQ2 (by decide) gaA (by decide) rfl⟩

/-! ## Claim C6 — leaderboard refinement -/

theorem statLookup_statSet (m : List (String × UserStat)) (k k' : String) (v : UserStat) :
    statLookup (statSet m k v) k' = if k' = k then some v else statLookup m k' := by
  induction m with
  | nil =>
    by_cases h : k' = k
    · simp [statSet, statLookup, h]
    · have : (k == k') = false := by
        simpa using fun hh : k = k' => h (hh ▸ rfl)
      simp [statSet, statLookup, List.find?, this, h]
  | cons p ps ih =>
    by_cases hp : (p.1 == k) = true
    · have hp' : p.1 = k := by simpa using hp
      by_cases h : k' = k
      · simp [statSet, statLookup, List.find?, hp, h]
      · have h1 : (k == k') = false := by
          simpa using fun hh : k = k' => h (hh ▸ rfl)
        have h2 : (p.1 == k') = false := by
          rw [hp']
          exact h1
        simp [statSet, statLookup, List.find?, hp, h, h1, h2]
    · by_cases hk : (p.1 == k') = true
      · have hk' : p.1 = k' := by simpa using hk
        have h : ¬(k' = k) := by
          intro hh
          apply hp
          rw [hk', hh]
          simp
        simp [statSet, statLookup, List.find?, hp, hk, h]
      · have := ih
        simp only [statLookup, statSet, hp] at *
        simp [List.find?, hk, this]

theorem statsFoldFrom_lookup (h : List GameAnswer) :
    ∀ (m : List (String × UserStat)) (uid : String),
    statLookup (statsFoldFrom m h) uid =
      if (h.filter (fun a => a.userId == uid)) = [] then statLookup m uid
      else some ((h.filter (fun a => a.userId == uid)).foldl addAnswer
        ((statLookup m uid).getD emptyStat)) := by
  induction h with
  | nil => intro m uid; simp [statsFoldFrom]
  | cons a t ih =>
    intro m uid
    have hstep : statsFoldFrom m (a :: t) =
        statsFoldFrom (statSet m a.userId
          (addAnswer ((statLookup m a.userId).getD emptyStat) a)) t := rfl
    rw [hstep, ih]
    by_cases hu : (a.userId == uid) = true
    · have hu' : a.userId = uid := by simpa using hu
      have hlk : statLookup (statSet m a.userId
          (addAnswer ((statLookup m a.userId).getD emptyStat) a)) uid =
          some (addAnswer ((statLookup m uid).getD emptyStat) a) := by
        rw [statLookup_statSet]
        rw [if_pos hu'.symm, hu']
      rw [hlk]
      simp only [List.filter_cons, hu]
      by_cases ht : (t.filter (fun a => a.userId == uid)) = []
      · simp [ht]
      · simp [ht, List.foldl_cons]
    · have hu' : ¬ (uid = a.userId) := by
        intro hh
        rw [hh] at hu
        simp at hu
      have hlk : statLookup (statSet m a.userId
          (addAnswer ((statLookup m a.userId).getD emptyStat) a)) uid =
          statLookup m uid := by
        rw [statLookup_statSet, if_neg hu']
      rw [hlk]
      have hub : (a.userId == uid) = false := by simpa using hu
      simp [List.filter_cons, hub]

theorem foldl_addAnswer_components (l : List GameAnswer) :
    ∀ st : UserStat,
    l.foldl addAnswer st =
      ⟨st.score + (l.map (·.pointsAwarded)).sum,
       st.correct + (l.filter (·.isCorrect)).length,
       st.timeSum + (l.map (·.timeToAnswer)).sum,
       st.count + l.length⟩ := by
  induction l with
  | nil => intro st; simp
  | cons a t ih =>
    intro st
    rw [List.foldl_cons, ih]
    unfold addAnswer
    cases ha : a.isCorrect <;>
      simp [ha, List.filter_cons, add_assoc, add_comm, add_left_comm]

theorem intList_sum_cast (l : List Int) :
    ((l.sum : Int) : ℚ) = (l.map (fun x : Int => (x : ℚ))).sum := by
  induction l with
  | nil => simp
  | cons x t ih => simp [ih]

theorem entryOfStat_eq_spec (hist : List GameAnswer) (member : RoomMember) :
    entryOfStat member (statLookup (statsFold hist) member.id) =
      specLeaderboardEntry member hist := by
  unfold statsFold
  rw [statsFoldFrom_lookup]
  by_cases hmine : (hist.filter (fun a => a.userId == member.id)) = []
  · rw [if_pos hmine]
    unfold specLeaderboardEntry
    rw [hmine]
    simp [entryOfStat, statLookup]
  · rw [if_neg hmine]
    have hlen : ¬ ((hist.filter (fun a => a.userId == member.id)).length = 0) := by
      simpa [List.length_eq_zero] using hmine
    have hlk0 : (statLookup ([] : List (String × UserStat)) member.id) = none := rfl
    rw [hlk0]
    simp only [Option.getD_none]
    rw [foldl_addAnswer_components]
    unfold specLeaderboardEntry entryOfStat emptyStat
    rw [if_neg hlen]
    dsimp only
    simp only [Nat.zero_add, Int.zero_add, zero_add]
    rw [if_pos hlen]
    have hcast := intList_sum_cast
      ((hist.filter (fun a => a.userId == member.id)).map (·.timeToAnswer))
    rw [hcast, List.map_map]
    rfl

theorem mem_insertByScoreDesc (x y : LeaderboardEntry) (l : List LeaderboardEntry) :
    y ∈ insertByScoreDesc x l ↔ y = x ∨ y ∈ l := by
  induction l with
  | nil => simp [insertByScoreDesc]
  | cons z zs ih =>
    by_cases h : z.score ≤ x.score
    · simp [insertByScoreDesc, h]
    · simp only [insertByScoreDesc, if_neg h, List.mem_cons, ih]
      tauto

theorem pairwise_insertByScoreDesc (x : LeaderboardEntry) (l : List LeaderboardEntry)
    (h : l.Pairwise (fun a b => b.score ≤ a.score)) :
    (insertByScoreDesc x l).Pairwise (fun a b => b.score ≤ a.score) := by
  induction l with
  | nil => simp [insertByScoreDesc]
  | cons z zs ih =>
    rw [List.pairwise_cons] at h
    obtain ⟨hz, hzs⟩ := h
    by_cases hle : z.score ≤ x.score
    · rw [insertByScoreDesc, if_pos hle, List.pairwise_cons]
      refine ⟨?_, ?_⟩
      · intro b hb
        rcases List.mem_cons.mp hb with hb | hb
        · exact hb ▸ hle
        · exact le_trans (hz b hb) hle
      · rw [List.pairwise_cons]
        exact ⟨hz, hzs⟩
    · rw [insertByScoreDesc, if_neg hle, List.pairwise_cons]
      refine ⟨?_, ih hzs⟩
      intro b hb
      rcases (mem_insertByScoreDesc x b zs).mp hb with hb | hb
      · rw [hb]
        exact le_of_not_le hle
      · exact hz b hb

theorem perm_insertByScoreDesc (x : LeaderboardEntry) (l : List LeaderboardEntry) :
    (insertByScoreDesc x l).Perm (x :: l) := by
  induction l with
  | nil => simp [insertByScoreDesc]
  | cons z zs ih =>
    by_cases hle : z.score ≤ x.score
    · rw [insertByScoreDesc, if_pos hle]
    · rw [insertByScoreDesc, if_neg hle]
      exact List.Perm.trans (List.Perm.cons z ih) (List.Perm.swap x z zs)

theorem pairwise_sortByScoreDesc (l : List LeaderboardEntry) :
    (sortByScoreDesc l).Pairwise (fun a b => b.score ≤ a.score) := by
  induction l with
  | nil => simp [sortByScoreDesc]
  | cons x xs ih => exact pairwise_insertByScoreDesc x _ ih

theorem perm_sortByScoreDesc (l : List LeaderboardEntry) :
    (sortByScoreDesc l).Perm l := by
  induction l with
  | nil => simp [sortByScoreDesc]
  | cons x xs ih =>
    exact List.Perm.trans (perm_insertByScoreDesc x (sortByScoreDesc xs))
      (List.Perm.cons x ih)

/-- C6: the leaderboard the engine computes equals the spec's reference
definition row for row (per-user aggregation of score, correct count, mean
time, zeros for members without answers, stable sort by score descending);
it is sorted by score descending and is a permutation of the per-member
rows. -/
theorem computeLeaderboard_eq_spec (room : Room) (hist : List GameAnswer) :
    computeLeaderboardFromHistory room hist = specLeaderboard room hist ∧
    (computeLeaderboardFromHistory room hist).Pairwise (fun a b => b.score ≤ a.score) ∧
    (computeLeaderboardFromHistory room hist).Perm
      (room.members.map (fun m => specLeaderboardEntry m hist)) := by
  have hmap : (room.members.map (fun member =>
      entryOfStat member (statLookup (statsFold hist) member.id))) =
      room.members.map (fun m => specLeaderboardEntry m hist) := by
    apply List.map_congr_left
    intro m _
    exact entryOfStat_eq_spec hist m
  refine ⟨?_, ?_, ?_⟩
  · unfold computeLeaderboardFromHistory specLeaderboard
    dsimp only
    rw [hmap]
  · exact pairwise_sortByScoreDesc _
  · unfold computeLeaderboardFromHistory
    dsimp only
    rw [hmap]
    exact perm_sortByScoreDesc _

/-! ## Claim C8 — restartGame preconditions (corrected) -/

theorem updateRoom_state_eq (s : ServerState) (roomId : String) (f : Room → Room)
    (room : Room) (hroom : getRoom s roomId = some room) :
    (updateRoom s roomId f).2 = setRoom s (f room) := by
  unfold updateRoom
  rw [hroom]

/-- Effect of `resetGameState` on the room: a fresh `starting` game state and
members with `hasAnswered`/`score` cleared. -/
theorem resetGameState_spec (s : ServerState) (roomId : String) (now : Int)
    (room : Room) (hroom : getRoom s roomId = some room) :
    getRoom (resetGameState s roomId now) roomId =
      some { room with
              gameState :=
                { isActive := true, phase := .starting, currentQuestion := none,
                  answers := [], answerHistory := [], currentQuestionIndex := 0,
                  totalQuestions := difficultyQuestionCount room.settings.difficulty,
                  difficulty := room.settings.difficulty,
                  gameStartTime := some now, gameEndTime := none,
                  usedCountries := [], leaderboard := [] },
              members := room.members.map
                (fun m => { m with hasAnswered := false, score := 0 }) } := by
  unfold resetGameState
  rw [hroom]
  dsimp only
  have hroom1 : getRoom (clearTimers s roomId) roomId = some room := hroom
  have h2 := getRoom_updateGameState_self (clearTimers s roomId) roomId
    (fun _ =>
      { isActive := true, phase := .starting, currentQuestion := none,
        answers := [], answerHistory := [], currentQuestionIndex := 0,
        totalQuestions := difficultyQuestionCount room.settings.difficulty,
        difficulty := room.settings.difficulty,
        gameStartTime := some now, gameEndTime := none,
        usedCountries := [], leaderboard := [] })
    room hroom1
  rw [updateRoom_state_eq _ roomId _ _ h2, getRoom_setRoom]
  have hid : room.id = roomId := getRoom_id hroom
  simp [hid]

/-- C8 amended: `restartGame` succeeds iff the caller is host, the room has at
least 2 members, and the game is inactive or `finished` — in particular an
inactive `waiting` game may be restarted; a failed call leaves everything
unchanged and emits nothing; a successful call emits `GAME_RESTARTED{5}` and
resets the game to an active `starting` state. -/
theorem restartGame_spec (s : ServerState) (roomId userId : String) (now : Int)
    (room : Room) (hroom : getRoom s roomId = some room) :
    ((restartGame s roomId userId now).1 = true ↔
      (room.host = userId ∧ 2 ≤ room.members.length ∧
        (room.gameState.isActive = false ∨ room.gameState.phase = .finished))) ∧
    ((restartGame s roomId userId now).1 = false →
      restartGame s roomId userId now = (false, s, [])) ∧
    ((restartGame s roomId userId now).1 = true →
      (restartGame s roomId userId now).2.2 = [Emit.toRoom roomId [] (.gameRestarted 5)] ∧
      (getRoom (restartGame s roomId userId now).2.1 roomId).map
          (fun r => (r.gameState.phase, r.gameState.isActive)) =
        some (GamePhase.starting, true)) := by
  unfold restartGame
  rw [hroom]
  dsimp only
  by_cases hhost : room.host ≠ userId
  · rw [if_pos hhost]
    refine ⟨?_, fun _ => rfl, ?_⟩
    · simp only [Bool.false_eq_true, false_iff]
      intro h
      exact hhost h.1
    · intro h
      simp at h
  · rw [if_neg hhost]
    push_neg at hhost
    by_cases hlen : room.members.length < 2
    · rw [if_pos hlen]
      refine ⟨?_, fun _ => rfl, ?_⟩
      · simp only [Bool.false_eq_true, false_iff]
        intro h
        omega
      · intro h
        simp at h
    · rw [if_neg hlen]
      by_cases hact : room.gameState.isActive = true ∧ room.gameState.phase ≠ GamePhase.finished
      · rw [if_pos hact]
        refine ⟨?_, fun _ => rfl, ?_⟩
        · simp only [Bool.false_eq_true, false_iff]
          rintro ⟨-, -, h3⟩
          rcases h3 with h3 | h3
          · rw [hact.1] at h3
            simp at h3
          · exact hact.2 h3
        · intro h
          simp at h
      · rw [if_neg hact]
        refine ⟨?_, ?_, ?_⟩
        · simp only [true_iff]
          refine ⟨hhost, by omega, ?_⟩
          by_cases hA : room.gameState.isActive = true
          · right
            by_contra hph
            exact hact ⟨hA, hph⟩
          · left
            simpa using hA
        · intro h
          simp at h
        · intro _
          refine ⟨rfl, ?_⟩
          rw [resetGameState_spec s roomId now room hroom]
          rfl

/-- C8 counterexample to the claim as stated: in `sW` the game is inactive in
phase `waiting` (not `finished`), yet the host's RESTART_GAME succeeds and
changes the game state to `starting`. -/
theorem restartGame_waiting_counterexample :
    roomW.gameState.phase = .waiting ∧ roomW.gameState.isActive = false ∧
    roomW.gameState.phase ≠ .finished ∧
    (restartGame sW "r1" "A" 5000).1 = true ∧
    (getRoom (restartGame sW "r1" "A" 5000).2.1 "r1").map (fun r => r.gameState.phase) =
      some .starting := by
  decide

/-- C8 witness: the amended characterization applied to the concrete waiting
room `sW`. -/
theorem restartGame_spec_witness :
    getRoom sW "r1" = some roomW ∧
    (((restartGame sW "r1" "A" 5000).1 = true ↔
      (roomW.host = "A" ∧ 2 ≤ roomW.members.length ∧
        (roomW.gameState.isActive = false ∨ roomW.gameState.phase = .finished))) ∧
    ((restartGame sW "r1" "A" 5000).1 = false →
      restartGame sW "r1" "A" 5000 = (false, sW, [])) ∧
    ((restartGame sW "r1" "A" 5000).1 = true →
      (restartGame sW "r1" "A" 5000).2.2 = [Emit.toRoom "r1" [] (.gameRestarted 5)] ∧
      (getRoom (restartGame sW "r1" "A" 5000).2.1 "r1").map
          (fun r => (r.gameState.phase, r.gameState.isActive)) =
        some (GamePhase.starting, true))) :=
  ⟨by decide, restartGame_spec sW "r1" "A" 5000 roomW (by decide)⟩

/-! ## Claim C3 — sliding-window rate limiter -/

theorem getOrUpdateWindow_facts (w : WindowData) (W now : Int)
    (hW : 0 < W) (hsz : w.windowSizeMs = W) (hstart : w.currentWindowStart ≤ now) :
    (getOrUpdateWindow (some w) W now).windowSizeMs = W ∧
    (getOrUpdateWindow (some w) W now).currentWindowStart ≤ now := by
  unfold getOrUpdateWindow
  dsimp only
  rw [if_neg (by rw [hsz]; exact fun h => h rfl)]
  have hfloor : (Int.fdiv now W) * W ≤ now := by
    rw [Int.fdiv_eq_ediv now (le_of_lt hW)]
    exact Int.ediv_mul_le now (ne_of_gt hW)
  by_cases hro : w.currentWindowStart + W ≤ now
  · rw [if_pos hro]
    exact ⟨rfl, hfloor⟩
  · rw [if_neg hro]
    exact ⟨hsz, hstart⟩

theorem calculateWeightedCount_eq (w : WindowData) (now : Int)
    (hW : 0 < w.windowSizeMs) (hle : w.currentWindowStart ≤ now) :
    calculateWeightedCount w now =
      (w.currentCount : ℚ) +
        max 0 (1 - ((now : ℚ) - (w.currentWindowStart : ℚ)) / (w.windowSizeMs : ℚ)) *
          (w.previousCount : ℚ) := by
  unfold calculateWeightedCount
  dsimp only
  have hWq : (0 : ℚ) < (w.windowSizeMs : ℚ) := by exact_mod_cast hW
  have he : (0 : ℚ) ≤ (now : ℚ) - (w.currentWindowStart : ℚ) := by
    rw [sub_nonneg]
    exact_mod_cast hle
  have hx : (1 : ℚ) - ((now : ℚ) - (w.currentWindowStart : ℚ)) / (w.windowSizeMs : ℚ) ≤ 1 := by
    have : (0 : ℚ) ≤ ((now : ℚ) - (w.currentWindowStart : ℚ)) / (w.windowSizeMs : ℚ) :=
      div_nonneg he (le_of_lt hWq)
    linarith
  rw [min_eq_right hx]

/-- C3: for a key's stored window (matching rule window size `W`, window start
not in the future), (1) the weighted load equals
`currentCount + max(0, 1 − (now − currentWindowStart)/W) · previousCount`
(the `min 1` clamp in the source is redundant), (2) `consume` admits iff the
weighted load is strictly below the limit, (3) `currentCount` is incremented
exactly on admission, and (4) on rollover (`now ≥ currentWindowStart + W`)
`previousCount` becomes the old `currentCount` exactly when one window
elapsed (`now − currentWindowStart < 2W`) and 0 otherwise, and `currentCount`
is zeroed. -/
theorem slidingWindow_spec (w : WindowData) (limit : Nat) (W now : Int)
    (hW : 0 < W) (hsz : w.windowSizeMs = W) (hstart : w.currentWindowStart ≤ now) :
    (calculateWeightedCount (getOrUpdateWindow (some w) W now) now =
      ((getOrUpdateWindow (some w) W now).currentCount : ℚ) +
        max 0 (1 - ((now : ℚ) - ((getOrUpdateWindow (some w) W now).currentWindowStart : ℚ))
            / (W : ℚ)) *
          ((getOrUpdateWindow (some w) W now).previousCount : ℚ)) ∧
    ((consume (some w) limit W now).1 = true ↔
      calculateWeightedCount (getOrUpdateWindow (some w) W now) now < (limit : ℚ)) ∧
    ((consume (some w) limit W now).2.currentCount =
      (getOrUpdateWindow (some w) W now).currentCount +
        (if (consume (some w) limit W now).1 = true then 1 else 0)) ∧
    (w.currentWindowStart + W ≤ now →
      (getOrUpdateWindow (some w) W now).previousCount =
        (if now - w.currentWindowStart < 2 * W then w.currentCount else 0) ∧
      (getOrUpdateWindow (some w) W now).currentCount = 0) := by
  obtain ⟨hsz', hle'⟩ := getOrUpdateWindow_facts w W now hW hsz hstart
  have hWpos : 0 < (getOrUpdateWindow (some w) W now).windowSizeMs := by
    rw [hsz']
    exact hW
  refine ⟨?_, ?_, ?_, ?_⟩
  · rw [calculateWeightedCount_eq _ now hWpos hle', hsz']
  · unfold consume
    dsimp only
    by_cases hcmp : (limit : ℚ) ≤ calculateWeightedCount (getOrUpdateWindow (some w) W now) now
    · rw [if_pos hcmp]
      simp only [Bool.false_eq_true, false_iff, not_lt]
      exact hcmp
    · rw [if_neg hcmp]
      simp only [true_iff]
      exact lt_of_not_le hcmp
  · unfold consume
    dsimp only
    by_cases hcmp : (limit : ℚ) ≤ calculateWeightedCount (getOrUpdateWindow (some w) W now) now
    · rw [if_pos hcmp]
      simp
    · rw [if_neg hcmp]
      simp
  · intro hro
    unfold getOrUpdateWindow
    dsimp only
    rw [if_neg (by rw [hsz]; exact fun h => h rfl), if_pos hro]
    refine ⟨?_, rfl⟩
    have hd : 0 ≤ now - w.currentWindowStart := by omega
    have hfd : Int.fdiv (now - w.currentWindowStart) W = (now - w.currentWindowStart) / W :=
      Int.fdiv_eq_ediv _ (le_of_lt hW)
    have h1 : 1 ≤ (now - w.currentWindowStart) / W ↔ 1 * W ≤ now - w.currentWindowStart :=
      Int.le_ediv_iff_mul_le hW
    have h2 : (now - w.currentWindowStart) / W < 2 ↔ now - w.currentWindowStart < 2 * W :=
      Int.ediv_lt_iff_lt_mul hW
    have hWled : W ≤ now - w.currentWindowStart := by omega
    have hiff : (Int.fdiv (now - w.currentWindowStart) W = 1) ↔
        (now - w.currentWindowStart < 2 * W) := by
      rw [hfd]
      constructor
      · intro he
        exact h2.mp (by omega)
      · intro hlt
        have ha : 1 ≤ (now - w.currentWindowStart) / W := h1.mpr (by omega)
        have hb : (now - w.currentWindowStart) / W < 2 := h2.mpr hlt
        omega
    rw [if_congr hiff rfl rfl]

/-- C3 witness: window `⟨3, 4, 1000, 100, 900⟩` with rule `(limit 10, W 100)`
at `now = 1150`: one window elapsed, so `previousCount` becomes 3 and the
request is admitted with `currentCount` going from 0 to 1. -/
theorem slidingWindow_spec_witness :
    (0 : Int) < 100 ∧ (⟨3, 4, 1000, 100, 900⟩ : WindowData).windowSizeMs = 100 ∧
    ((calculateWeightedCount (getOrUpdateWindow (some ⟨3, 4, 1000, 100, 900⟩) 100 1150) 1150 =
      ((getOrUpdateWindow (some ⟨3, 4, 1000, 100, 900⟩) 100 1150).currentCount : ℚ) +
        max 0 (1 - ((1150 : ℚ) -
            ((getOrUpdateWindow (some ⟨3, 4, 1000, 100, 900⟩) 100 1150).currentWindowStart : ℚ))
            / (100 : ℚ)) *
          ((getOrUpdateWindow (some ⟨3, 4, 1000, 100, 900⟩) 100 1150).previousCount : ℚ)) ∧
    ((consume (some ⟨3, 4, 1000, 100, 900⟩) 10 100 1150).1 = true ↔
      calculateWeightedCount (getOrUpdateWindow (some ⟨3, 4, 1000, 100, 900⟩) 100 1150) 1150
        < (10 : ℚ)) ∧
    ((consume (some ⟨3, 4, 1000, 100, 900⟩) 10 100 1150).2.currentCount =
      (getOrUpdateWindow (some ⟨3, 4, 1000, 100, 900⟩) 100 1150).currentCount +
        (if (consume (some ⟨3, 4, 1000, 100, 900⟩) 10 100 1150).1 = true then 1 else 0)) ∧
    ((⟨3, 4, 1000, 100, 900⟩ : WindowData).currentWindowStart + 100 ≤ 1150 →
      (getOrUpdateWindow (some ⟨3, 4, 1000, 100, 900⟩) 100 1150).previousCount =
        (if (1150 : Int) - (⟨3, 4, 1000, 100, 900⟩ : WindowData).currentWindowStart < 2 * 100
          then (⟨3, 4, 1000, 100, 900⟩ : WindowData).currentCount else 0) ∧
      (getOrUpdateWindow (some ⟨3, 4, 1000, 100, 900⟩) 100 1150).currentCount = 0)) :=
  ⟨by decide, by decide,
    slidingWindow_spec ⟨3, 4, 1000, 100, 900⟩ 10 100 1150 (by decide) (by decide) (by decide)⟩

/-! ## Claim C9 — invite-code generation and validation (corrected) -/

/-- C9 counterexample: the validator (`z.string().length(6)`) accepts
`"abc-_z"`, which is not made of uppercase alphanumerics; and with random
picks selecting `'-'`, `create` issues the invite code `"------"` and a
second room created with the same picks carries the same code. -/
theorem inviteCode_counterexample :
    acceptsInviteCode "abc-_z" = true ∧ isUpperAlnum "abc-_z" = false ∧
    (getRoom (createRoom initialState "r1" memberA ⟨2, .easy, 10⟩ picksDash) "r1").map
        (fun r => r.inviteCode) = some "------" ∧
    isUpperAlnum "------" = false ∧
    (getRoom (createRoom (createRoom initialState "r1" memberA ⟨2, .easy, 10⟩ picksDash)
          "r2" memberB ⟨2, .easy, 10⟩ picksDash) "r1").map (fun r => r.inviteCode) =
      (getRoom (createRoom (createRoom initialState "r1" memberA ⟨2, .easy, 10⟩ picksDash)
          "r2" memberB ⟨2, .easy, 10⟩ picksDash) "r2").map (fun r => r.inviteCode) := by
  decide

/-- C9 amended: every generated invite code has exactly 6 characters, each an
uppercase letter, digit, `'-'` or `'_'` (the uppercased nanoid url alphabet);
no uniqueness check is performed against live rooms; and the invite-code
validator accepts exactly the strings of length 6, whatever their
characters. -/
theorem inviteCode_spec :
    (∀ picks : Nat → Fin 64,
      (jsToUpper (nanoid 6 picks)).length = 6 ∧
      ∀ c ∈ (jsToUpper (nanoid 6 picks)).toList,
        c.isUpper = true ∨ c.isDigit = true ∨ c = '-' ∨ c = '_') ∧
    (∀ s : String, acceptsInviteCode s = true ↔ s.length = 6) := by
  constructor
  · intro picks
    have halpha : ∀ j : Fin 64,
        (nanoidAlphabet.getD (j : Nat) 'u').toUpper.isUpper = true ∨
        (nanoidAlphabet.getD (j : Nat) 'u').toUpper.isDigit = true ∨
        (nanoidAlphabet.getD (j : Nat) 'u').toUpper = '-' ∨
        (nanoidAlphabet.getD (j : Nat) 'u').toUpper = '_' := by decide
    constructor
    · simp [jsToUpper, nanoid, String.length]
    · intro c hc
      simp only [jsToUpper, nanoid, String.toList] at hc
      rw [List.map_map] at hc
      rcases List.mem_map.mp hc with ⟨i, _, hi⟩
      have := halpha (picks i)
      rw [← hi]
      simpa using this
  · intro s
    unfold acceptsInviteCode
    simp

/-! ## Claim C10 — username sanitization truncates to 20 characters -/

theorem stripTagsAux_length_le (cs : List Char) :
    ∀ b : Bool, (stripTagsAux b cs).length ≤ cs.length := by
  induction cs with
  | nil => intro b; cases b <;> simp [stripTagsAux]
  | cons c cs ih =>
    intro b
    cases b with
    | true =>
      by_cases h : c = '>'
      · simp only [stripTagsAux, if_pos h]
        exact le_trans (ih false) (by simp)
      · simp only [stripTagsAux, if_neg h]
        exact le_trans (ih true) (by simp)
    | false =>
      by_cases h : c = '<'
      · simp only [stripTagsAux, if_pos h]
        exact le_trans (ih true) (by simp)
      · simp only [stripTagsAux, if_neg h, List.length_cons]
        exact Nat.succ_le_succ (ih false)

/-- C10: the sanitized username is at most 20 characters long for every
input; consequently a schema-accepted username of length 21–30 is stored
truncated, not verbatim. -/
theorem sanitizeUsername_truncates :
    (∀ s : String, (sanitizeUsername s).length ≤ 20) ∧
    (∀ s : String, acceptsUsername s = true → 21 ≤ s.length →
      sanitizeUsername s ≠ s ∧ (sanitizeUsername s).length ≤ 20) := by
  have hlen : ∀ s : String, (sanitizeUsername s).length ≤ 20 := by
    intro s
    unfold sanitizeUsername
    dsimp only
    show (stripTagsAux false ((collapseWsAux false (jsTrim s.toList)).take 20)).length ≤ 20
    calc (stripTagsAux false ((collapseWsAux false (jsTrim s.toList)).take 20)).length
        ≤ ((collapseWsAux false (jsTrim s.toList)).take 20).length :=
          stripTagsAux_length_le _ false
      _ ≤ 20 := by simp
  refine ⟨hlen, fun s _ h21 => ⟨?_, hlen s⟩⟩
  intro heq
  have := hlen s
  rw [heq] at this
  omega

/-- C10 witness: a 25-character accepted username comes out of sanitization
with at most 20 characters and is therefore not stored verbatim. -/
theorem sanitizeUsername_truncates_witness :
    acceptsUsername "aaaaaaaaaaaaaaaaaaaaaaaaa" = true ∧
    21 ≤ ("aaaaaaaaaaaaaaaaaaaaaaaaa" : String).length ∧
    (sanitizeUsername "aaaaaaaaaaaaaaaaaaaaaaaaa" ≠ "aaaaaaaaaaaaaaaaaaaaaaaaa" ∧
      (sanitizeUsername "aaaaaaaaaaaaaaaaaaaaaaaaa").length ≤ 20) :=
  ⟨by decide, by decide,
    sanitizeUsername_truncates.2 "aaaaaaaaaaaaaaaaaaaaaaaaa" (by decide) (by decide)⟩

/-! ## More store lemmas (filters, user updates) -/

theorem getUser_setRoom (s : ServerState) (room : Room) (userId : String) :
    getUser (setRoom s room) userId = getUser s userId := rfl

theorem getRoom_setUser (s : ServerState) (user : User) (roomId : String) :
    getRoom (setUser s user) roomId = getRoom s roomId := rfl

theorem list_find?_filter_ne {α : Type} (key : α → String) (tgt : String)
    (l : List α) (id : String) :
    (l.filter (fun a => key a != tgt)).find? (fun a => key a == id) =
      if id = tgt then none else l.find? (fun a => key a == id) := by
  induction l with
  | nil => simp
  | cons a as ih =>
    by_cases hk : key a = tgt
    · have hne : (key a != tgt) = false := by simp [hk]
      rw [List.filter_cons, if_neg (by simp [hne]), ih]
      by_cases hid : id = tgt
      · simp [hid]
      · have hne2 : (key a == id) = false := by
          refine beq_eq_false_iff_ne.mpr ?_
          intro h
          apply hid
          rw [← h, hk]
        simp [List.find?, hid, hne2]
    · have hne : (key a != tgt) = true := by simp [hk]
      rw [List.filter_cons, if_pos (by simp [hne])]
      by_cases ha : (key a == id) = true
      · have ha' : key a = id := by simpa using ha
        have hid : ¬(id = tgt) := fun h => hk (ha' ▸ h)
        simp [List.find?, ha, hid]
      · simp only [List.find?, ha, ih]

theorem getRoom_deleteRoom (s : ServerState) (roomId id : String) :
    getRoom (deleteRoom s roomId) id = if id = roomId then none else getRoom s id := by
  show (s.rooms.filter (fun r => r.id != roomId)).find? (fun r => r.id == id) = _
  exact list_find?_filter_ne (fun r => r.id) roomId s.rooms id

theorem getUser_deleteUser (s : ServerState) (userId id : String) :
    getUser (deleteUser s userId) id = if id = userId then none else getUser s id := by
  show (s.users.filter (fun u => u.id != userId)).find? (fun u => u.id == id) = _
  exact list_find?_filter_ne (fun u => u.id) userId s.users id

theorem updateUser_state_eq (s : ServerState) (userId : String) (f : User → User)
    (u : User) (hu : getUser s userId = some u) :
    (updateUser s userId f).2 = setUser s (f u) := by
  unfold updateUser
  rw [hu]

theorem removeUserFromRoom_eq (s : ServerState) (roomId userId : String) (room : Room)
    (hroom : getRoom s roomId = some room) :
    removeUserFromRoom s roomId userId =
      (some { room with members := room.members.filter (fun m => m.id != userId) },
       setRoom s { room with members := room.members.filter (fun m => m.id != userId) }) := by
  unfold removeUserFromRoom
  rw [hroom]

theorem kickUserFromRoom_eq (s : ServerState) (roomId userId : String) (room : Room)
    (hroom : getRoom s roomId = some room) :
    kickUserFromRoom s roomId userId =
      (some { room with
                members := room.members.filter (fun m => m.id != userId),
                kickedUsers := room.kickedUsers ++ [userId] },
       setRoom s { room with
                    members := room.members.filter (fun m => m.id != userId),
                    kickedUsers := room.kickedUsers ++ [userId] }) := by
  unfold kickUserFromRoom
  rw [hroom]

theorem setNewHost_state_eq (s : ServerState) (roomId newHostId : String) (room : Room)
    (hroom : getRoom s roomId = some room)
    (hfind : (room.members.find? (fun m => m.id == newHostId)).isSome = true) :
    (setNewHost s roomId newHostId).2 = setRoom s { room with host := newHostId } := by
  unfold setNewHost
  rw [hroom]
  dsimp only
  rw [if_pos hfind]

/-! ## Claim C7 — kicking a member (corrected: the target's connection is
not closed) -/

/-- C7 amended, first part: when the host kicks another member, the target is
moved to `kickedUsers` and out of `members`, `USER_KICKED` is broadcast to
the room excluding the target, a direct `KICKED` goes to the target, the
target's user record is detached (`roomId := ""`, `isAdmin := false`) — but
the connection registry is untouched, so the target stays connected.  Second
part: any subsequent JOIN_ROOM by a kicked user addressing that room is
answered `ERROR{KICKED_FROM_ROOM}` and changes nothing. -/
theorem handleKickUser_spec (s : ServerState) (userId roomId targetId : String)
    (room : Room) (targetUser : User)
    (hroom : getRoom s roomId = some room)
    (hhost : room.host = userId)
    (htarget : getUser s targetId = some targetUser)
    (hnotself : room.host ≠ targetId) :
    (∃ room',
      getRoom (handleKickUser s (some userId) (some roomId) targetId).1 roomId = some room' ∧
      room'.kickedUsers = room.kickedUsers ++ [targetId] ∧
      room'.members = room.members.filter (fun m => m.id != targetId)) ∧
    (handleKickUser s (some userId) (some roomId) targetId).2 =
      [Emit.toRoom roomId [targetId] (.userKicked targetId
        { room with
            members := room.members.filter (fun m => m.id != targetId),
            kickedUsers := room.kickedUsers ++ [targetId] }),
       Emit.toUser targetId (.kicked "Kicked by host")] ∧
    (getUser (handleKickUser s (some userId) (some roomId) targetId).1 targetId).map
        (fun u => (u.roomId, u.isAdmin)) = some ("", false) ∧
    (handleKickUser s (some userId) (some roomId) targetId).1.connections = s.connections ∧
    (∀ (s' : ServerState) (code uname : String) (room2 : Room),
      getRoomByInviteCode s' code = some room2 → targetId ∈ room2.kickedUsers →
      handleJoinRoom s' (some targetId) none true code uname =
        (s', none, [Emit.toCaller (.error .kickedFromRoom)])) := by
  have hjoin : ∀ (s' : ServerState) (code uname : String) (room2 : Room),
      getRoomByInviteCode s' code = some room2 → targetId ∈ room2.kickedUsers →
      handleJoinRoom s' (some targetId) none true code uname =
        (s', none, [Emit.toCaller (.error .kickedFromRoom)]) := by
    intro s' code uname room2 hfound hkicked
    unfold handleJoinRoom
    dsimp only
    rw [if_neg (by simp)]
    rw [if_neg (by simp)]
    rw [hfound]
    dsimp only
    rw [if_pos hkicked]
  unfold handleKickUser
  dsimp only
  rw [hroom]
  dsimp only
  rw [if_neg (by simp [hhost]), htarget]
  dsimp only
  rw [kickUserFromRoom_eq s roomId targetId room hroom]
  dsimp only
  have hupd : (updateUser
      (setRoom s { room with
                    members := room.members.filter (fun m => m.id != targetId),
                    kickedUsers := room.kickedUsers ++ [targetId] })
      targetId (fun u => { u with roomId := "", isAdmin := false })).2 =
      setUser (setRoom s { room with
                            members := room.members.filter (fun m => m.id != targetId),
                            kickedUsers := room.kickedUsers ++ [targetId] })
        { targetUser with roomId := "", isAdmin := false } :=
    updateUser_state_eq _ targetId _ targetUser htarget
  cases hm : room.members.filter (fun m => m.id != targetId) with
  | nil =>
    dsimp only
    rw [hm] at hupd
    rw [hupd]
    refine ⟨⟨{ room with
                members := [],
                kickedUsers := room.kickedUsers ++ [targetId] }, ?_, rfl, rfl⟩,
      rfl, ?_, rfl, hjoin⟩
    · rw [getRoom_setUser, getRoom_setRoom]
      have hid : room.id = roomId := getRoom_id hroom
      simp [hid]
    · have hid2 : targetUser.id = targetId := getUser_id htarget
      rw [getUser_setUser]
      simp [hid2]
  | cons newHost rest =>
    dsimp only
    rw [if_neg hnotself]
    dsimp only
    rw [hm] at hupd
    rw [hupd]
    refine ⟨⟨{ room with
                members := newHost :: rest,
                kickedUsers := room.kickedUsers ++ [targetId] }, ?_, rfl, rfl⟩,
      rfl, ?_, rfl, hjoin⟩
    · rw [getRoom_setUser, getRoom_setRoom]
      have hid : room.id = roomId := getRoom_id hroom
      simp [hid]
    · have hid2 : targetUser.id = targetId := getUser_id htarget
      rw [getUser_setUser]
      simp [hid2]

/-- C7 counterexample to the claim as stated: host A kicks B in `sQ`; after
the handler runs, B's connection is still registered — no disconnect
happens. -/
theorem handleKickUser_no_disconnect_counterexample :
    "B" ∈ sQ.connections ∧
    "B" ∈ (handleKickUser sQ (some "A") (some "r1") "B").1.connections := by
  decide

/-- C7 witness: host A kicks B in the concrete room `sQ`. -/
theorem handleKickUser_spec_witness :
    getRoom sQ "r1" = some roomQ ∧ roomQ.host = "A" ∧
    (∃ room',
      getRoom (handleKickUser sQ (some "A") (some "r1") "B").1 "r1" = some room' ∧
      room'.kickedUsers = roomQ.kickedUsers ++ ["B"] ∧
      room'.members = roomQ.members.filter (fun m => m.id != "B")) ∧
    (getUser (handleKickUser sQ (some "A") (some "r1") "B").1 "B").map
        (fun u => (u.roomId, u.isAdmin)) = some ("", false) ∧
    (handleKickUser sQ (some "A") (some "r1") "B").1.connections = sQ.connections :=
  have h := handleKickUser_spec sQ "A" "r1" "B" roomQ userB (by decide) (by decide)
    (by decide) (by decide)
  ⟨by decide, by decide, h.1, h.2.2.1, h.2.2.2.1⟩

/-! ## Claim C5 — disconnect flow -/

/-- `removeConnectionAndUser` either leaves a room untouched or (through the
leftover user record) filters the departing user out of its member list once
more. -/
theorem getRoom_deleteUser (s : ServerState) (userId roomId : String) :
    getRoom (deleteUser s userId) roomId = getRoom s roomId := rfl

theorem removeConnectionAndUser_getRoom (s' : ServerState) (u rid : String) :
    (getRoom (removeConnectionAndUser s' u) rid = getRoom s' rid) ∨
    (∃ r, getRoom s' rid = some r ∧
      getRoom (removeConnectionAndUser s' u) rid =
        some { r with members := r.members.filter (fun m => m.id != u) }) := by
  unfold removeConnectionAndUser
  by_cases hc : u ∈ s'.connections
  · rw [if_pos hc]
    dsimp only
    have hcu : getUser { s' with connections := s'.connections.filter (fun x => x != u) } u =
        getUser s' u := rfl
    rw [hcu]
    cases hu : getUser s' u with
    | none =>
      left
      dsimp only
      rw [getRoom_deleteUser]
      rfl
    | some user' =>
      dsimp only
      by_cases hrid : user'.roomId ≠ ""
      · rw [if_pos hrid]
        unfold userLeaveOwnRoom
        rw [hcu, hu]
        dsimp only
        rw [if_neg hrid]
        unfold removeUserFromRoom
        have hgr : getRoom { s' with connections := s'.connections.filter (fun x => x != u) }
            user'.roomId = getRoom s' user'.roomId := rfl
        rw [hgr]
        cases hr : getRoom s' user'.roomId with
        | none =>
          left
          dsimp only
          rw [getRoom_deleteUser]
          rfl
        | some r =>
          dsimp only
          by_cases heq : rid = r.id
          · right
            refine ⟨r, ?_, ?_⟩
            · rw [heq, getRoom_id hr]
              exact hr
            · rw [getRoom_deleteUser, getRoom_setRoom]
              simp [heq]
          · left
            rw [getRoom_deleteUser, getRoom_setRoom, if_neg heq]
            rfl
      · rw [if_neg hrid]
        left
        rw [getRoom_deleteUser]
        rfl
  · rw [if_neg hc]
    left
    rfl

/-- `removeConnectionAndUser u` leaves every other user's record alone. -/
theorem removeConnectionAndUser_getUser_ne (s' : ServerState) (u x : String)
    (hx : x ≠ u) :
    getUser (removeConnectionAndUser s' u) x = getUser s' x := by
  unfold removeConnectionAndUser
  by_cases hc : u ∈ s'.connections
  · rw [if_pos hc]
    dsimp only
    have hcu : getUser { s' with connections := s'.connections.filter (fun y => y != u) } u =
        getUser s' u := rfl
    rw [hcu]
    cases hu : getUser s' u with
    | none =>
      dsimp only
      rw [getUser_deleteUser, if_neg hx]
      rfl
    | some user' =>
      dsimp only
      by_cases hrid : user'.roomId ≠ ""
      · rw [if_pos hrid]
        unfold userLeaveOwnRoom
        rw [hcu, hu]
        dsimp only
        rw [if_neg hrid]
        unfold removeUserFromRoom
        have hgr : getRoom { s' with connections := s'.connections.filter (fun y => y != u) }
            user'.roomId = getRoom s' user'.roomId := rfl
        rw [hgr]
        cases hr : getRoom s' user'.roomId with
        | none =>
          dsimp only
          rw [getUser_deleteUser, if_neg hx]
          rfl
        | some r =>
          dsimp only
          rw [getUser_deleteUser, if_neg hx, getUser_setRoom]
          rfl
      · rw [if_neg hrid]
        rw [getUser_deleteUser, if_neg hx]
        rfl
  · rw [if_neg hc]

theorem stopGame_events (s : ServerState) (roomId : String) (now : Int) (room : Room)
    (hroom : getRoom s roomId = some room) :
    (stopGame s roomId now).2.2 = [Emit.toRoom roomId [] .gameStopped] := by
  unfold stopGame
  rw [hroom]

theorem filter_ne_idem (l : List RoomMember) (uid : String) :
    (l.filter (fun m => m.id != uid)).filter (fun m => m.id != uid) =
      l.filter (fun m => m.id != uid) := by
  apply List.filter_eq_self.mpr
  intro a ha
  simpa using List.of_mem_filter ha

/-- C5: on disconnect of a room member, the user leaves the member list; if
they were host and members remain, the first remaining member becomes host
and is marked admin, with `HOST_CHANGED` emitted before `USER_LEFT`;
otherwise only `USER_LEFT` is emitted; and when the room became empty the
game is stopped (`GAME_STOPPED` after `USER_LEFT`) and the room deleted. -/
theorem handleUserDisconnect_spec (s : ServerState) (userId : String) (now : Int)
    (user : User) (room : Room)
    (huser : getUser s userId = some user)
    (hner : user.roomId ≠ "")
    (hroomr : getRoom s user.roomId = some room)
    (husers : ∀ m ∈ room.members, (getUser s m.id).isSome = true) :
    (match room.members.filter (fun m => m.id != userId) with
     | [] =>
       getRoom (handleUserDisconnect s userId now).1 user.roomId = none ∧
       (handleUserDisconnect s userId now).2 =
         [Emit.toRoom user.roomId [] (.userLeft userId { room with members := [] }),
          Emit.toRoom user.roomId [] .gameStopped]
     | newHost :: rest =>
       (∃ room',
         getRoom (handleUserDisconnect s userId now).1 user.roomId = some room' ∧
         room'.members = newHost :: rest ∧
         room'.host = (if room.host = userId then newHost.id else room.host)) ∧
       (room.host = userId →
         (getUser (handleUserDisconnect s userId now).1 newHost.id).map
           (fun u => u.isAdmin) = some true) ∧
       (handleUserDisconnect s userId now).2 =
         (if room.host = userId
           then [Emit.toRoom user.roomId [] (.hostChanged newHost)] else []) ++
           [Emit.toRoom user.roomId []
             (.userLeft userId { room with members := newHost :: rest })]) := by
  have hid : room.id = user.roomId := getRoom_id hroomr
  unfold handleUserDisconnect
  rw [huser]
  dsimp only
  rw [if_neg hner]
  rw [removeUserFromRoom_eq s user.roomId userId room hroomr]
  dsimp only
  have hroom1 : getRoom
      (setRoom s { room with members := room.members.filter (fun m => m.id != userId) })
      user.roomId =
      some { room with members := room.members.filter (fun m => m.id != userId) } := by
    rw [getRoom_setRoom]
    simp [hid]
  cases hm : room.members.filter (fun m => m.id != userId) with
  | nil =>
    rw [hm] at hroom1
    dsimp only
    rw [hroom1]
    dsimp only
    simp only [List.length_nil]
    rw [if_pos trivial]
    dsimp only
    constructor
    · rcases removeConnectionAndUser_getRoom _ userId user.roomId with hcase | ⟨r, hr, _⟩
      · rw [hcase, getRoom_deleteRoom, if_pos rfl]
      · rw [getRoom_deleteRoom, if_pos rfl] at hr
        exact absurd hr (by simp)
    · rw [stopGame_events _ _ now _ hroom1]
      rfl
  | cons newHost rest =>
    rw [hm] at hroom1
    dsimp only
    rw [hroom1]
    dsimp only
    have hnh_mem : newHost ∈ room.members := by
      have : newHost ∈ room.members.filter (fun m => m.id != userId) := by
        rw [hm]
        exact List.mem_cons_self _ _
      exact List.mem_of_mem_filter this
    have hnhne : newHost.id ≠ userId := by
      have hmem2 : newHost ∈ room.members.filter (fun m => m.id != userId) := by
        rw [hm]
        exact List.mem_cons_self _ _
      have hp := List.of_mem_filter hmem2
      simpa using hp
    have hkeep : (newHost :: rest).filter (fun m => m.id != userId) = newHost :: rest := by
      rw [← hm]
      exact filter_ne_idem room.members userId
    by_cases hhost : room.host = userId
    · rw [if_pos hhost]
      dsimp only
      obtain ⟨hostUser, hhu⟩ : ∃ hu, getUser s newHost.id = some hu :=
        Option.isSome_iff_exists.mp (husers newHost hnh_mem)
      rw [setNewHost_state_eq _ user.roomId newHost.id _ hroom1 (by simp [List.find?])]
      have hgu : getUser
          (setRoom (setRoom s { room with members := newHost :: rest })
            { { room with members := newHost :: rest } with host := newHost.id })
          newHost.id = some hostUser := hhu
      rw [updateUser_state_eq _ newHost.id _ hostUser hgu]
      dsimp only
      rw [if_neg (by simp)]
      have hgB : getRoom
          (setUser
            (setRoom (setRoom s { room with members := newHost :: rest })
              { { room with members := newHost :: rest } with host := newHost.id })
            { hostUser with isAdmin := true })
          user.roomId =
          some { { room with members := newHost :: rest } with host := newHost.id } := by
        rw [getRoom_setUser, getRoom_setRoom]
        simp [hid]
      refine ⟨?_, ?_, ?_⟩
      · rcases removeConnectionAndUser_getRoom _ userId user.roomId with hcase | ⟨r, hr, hres⟩
        · refine ⟨_, hcase.trans hgB, rfl, ?_⟩
          rw [if_pos hhost]
        · rw [hgB] at hr
          have hr' := Option.some.inj hr
          rw [← hr'] at hres
          refine ⟨_, hres, ?_, ?_⟩
          · exact hkeep
          · rw [if_pos hhost]
      · intro _
        rw [removeConnectionAndUser_getUser_ne _ userId newHost.id hnhne,
          getUser_setUser]
        have hhid : hostUser.id = newHost.id := getUser_id hhu
        simp [hhid]
      · rw [if_pos hhost]
    · rw [if_neg hhost]
      dsimp only
      rw [if_neg (by simp)]
      refine ⟨?_, ?_, ?_⟩
      · rcases removeConnectionAndUser_getRoom _ userId user.roomId with hcase | ⟨r, hr, hres⟩
        · refine ⟨_, hcase.trans hroom1, rfl, ?_⟩
          rw [if_neg hhost]
        · rw [hroom1] at hr
          have hr' := Option.some.inj hr
          rw [← hr'] at hres
          refine ⟨_, hres, ?_, ?_⟩
          · exact hkeep
          · rw [if_neg hhost]
      · intro h
        exact absurd h hhost
      · rw [if_neg hhost]

/-- C5 witness: host A disconnects from the two-member room `sQ`: B is
promoted (marked admin), `HOST_CHANGED` precedes `USER_LEFT`, and the room
keeps exactly member B. -/
theorem handleUserDisconnect_spec_witness :
    getUser sQ "A" = some userA ∧ getRoom sQ userA.roomId = some roomQ ∧
    ((∃ room',
        getRoom (handleUserDisconnect sQ "A" 9000).1 userA.roomId = some room' ∧
        room'.members = [memberB] ∧
        room'.host = (if roomQ.host = "A" then memberB.id else roomQ.host)) ∧
      (roomQ.host = "A" →
        (getUser (handleUserDisconnect sQ "A" 9000).1 memberB.id).map
          (fun u => u.isAdmin) = some true) ∧
      (handleUserDisconnect sQ "A" 9000).2 =
        (if roomQ.host = "A"
          then [Emit.toRoom userA.roomId [] (.hostChanged memberB)] else []) ++
          [Emit.toRoom userA.roomId []
            (.userLeft "A" { roomQ with members := [memberB] })]) :=
  ⟨by decide, by decide,
    handleUserDisconnect_spec sQ "A" 9000 userA roomQ (by decide) (by decide)
      (by decide) (by decide)⟩

/-! ## Claim C4 — room-capacity bookkeeping

`memberCount` per operation: the store primitives and handlers either leave
every room's member count unchanged, shrink it, or (for the three joining
operations) grow it while staying within the resulting room's
`maxRoomSize`. -/

theorem memberCount_some (s : ServerState) (roomId : String) (room : Room)
    (h : getRoom s roomId = some room) :
    memberCount s roomId = room.members.length := by
  unfold memberCount
  rw [h]
  rfl

theorem memberCount_setRoom (s : ServerState) (updated : Room) (rid : String) :
    memberCount (setRoom s updated) rid =
      if rid = updated.id then updated.members.length else memberCount s rid := by
  unfold memberCount
  rw [getRoom_setRoom]
  by_cases h : rid = updated.id
  · rw [if_pos h, if_pos h]
    rfl
  · rw [if_neg h, if_neg h]

theorem maxSizeOf_setRoom (s : ServerState) (updated : Room) (rid : String) :
    maxSizeOf (setRoom s updated) rid =
      if rid = updated.id then updated.settings.maxRoomSize else maxSizeOf s rid := by
  unfold maxSizeOf
  rw [getRoom_setRoom]
  by_cases h : rid = updated.id
  · rw [if_pos h, if_pos h]
    rfl
  · rw [if_neg h, if_neg h]

theorem memberCount_setRoom_preserve (s : ServerState) (roomId : String)
    (room updated : Room) (h : getRoom s roomId = some room)
    (hid : updated.id = room.id) (hmem : updated.members.length = room.members.length)
    (rid : String) :
    memberCount (setRoom s updated) rid = memberCount s rid := by
  rw [memberCount_setRoom]
  by_cases hr : rid = updated.id
  · rw [if_pos hr, hmem]
    have hid2 : room.id = roomId := getRoom_id h
    rw [hr, hid, hid2, memberCount_some s roomId room h]
  · rw [if_neg hr]

theorem memberCount_setRoom_le (s : ServerState) (roomId : String)
    (room updated : Room) (h : getRoom s roomId = some room)
    (hid : updated.id = room.id) (hmem : updated.members.length ≤ room.members.length)
    (rid : String) :
    memberCount (setRoom s updated) rid ≤ memberCount s rid := by
  rw [memberCount_setRoom]
  by_cases hr : rid = updated.id
  · rw [if_pos hr]
    have hid2 : room.id = roomId := getRoom_id h
    rw [hr, hid, hid2, memberCount_some s roomId room h]
    exact hmem
  · rw [if_neg hr]

theorem memberCount_clearTimers (s : ServerState) (roomId rid : String) :
    memberCount (clearTimers s roomId) rid = memberCount s rid := rfl

theorem memberCount_createUser (s : ServerState) (userId username rid : String) :
    memberCount (createUser s userId username) rid = memberCount s rid := rfl

theorem memberCount_deleteUser (s : ServerState) (userId rid : String) :
    memberCount (deleteUser s userId) rid = memberCount s rid := rfl

theorem memberCount_updateUser (s : ServerState) (userId : String) (f : User → User)
    (rid : String) :
    memberCount (updateUser s userId f).2 rid = memberCount s rid := by
  unfold updateUser
  cases getUser s userId <;> rfl

theorem memberCount_deleteRoom_le (s : ServerState) (roomId rid : String) :
    memberCount (deleteRoom s roomId) rid ≤ memberCount s rid := by
  unfold memberCount
  rw [getRoom_deleteRoom]
  by_cases h : rid = roomId
  · rw [if_pos h]
    exact Nat.zero_le _
  · rw [if_neg h]

theorem memberCount_updateGameState (s : ServerState) (roomId : String)
    (f : GameState → GameState) (rid : String) :
    memberCount (updateGameState s roomId f).2 rid = memberCount s rid := by
  unfold updateGameState
  cases h : getRoom s roomId with
  | none => rfl
  | some room =>
    dsimp only
    exact memberCount_setRoom_preserve s roomId room
      { room with gameState := f room.gameState } h rfl rfl rid

theorem memberCount_setNewHost (s : ServerState) (roomId newHostId rid : String) :
    memberCount (setNewHost s roomId newHostId).2 rid = memberCount s rid := by
  unfold setNewHost
  cases h : getRoom s roomId with
  | none => rfl
  | some room =>
    dsimp only
    split
    · dsimp only
      exact memberCount_setRoom_preserve s roomId room
        { room with host := newHostId } h rfl rfl rid
    · rfl

theorem memberCount_removeUser_le (s : ServerState) (roomId userId rid : String) :
    memberCount (removeUserFromRoom s roomId userId).2 rid ≤ memberCount s rid := by
  unfold removeUserFromRoom
  cases h : getRoom s roomId with
  | none => exact Nat.le_refl _
  | some room =>
    dsimp only
    exact memberCount_setRoom_le s roomId room
      { room with members := room.members.filter (fun m => m.id != userId) } h rfl
      (List.length_filter_le _ _) rid

theorem memberCount_kickFromRoom_le (s : ServerState) (roomId userId rid : String) :
    memberCount (kickUserFromRoom s roomId userId).2 rid ≤ memberCount s rid := by
  unfold kickUserFromRoom
  cases h : getRoom s roomId with
  | none => exact Nat.le_refl _
  | some room =>
    dsimp only
    exact memberCount_setRoom_le s roomId room
      { room with members := room.members.filter (fun m => m.id != userId),
                  kickedUsers := room.kickedUsers ++ [userId] } h rfl
      (List.length_filter_le _ _) rid

theorem memberCount_updateRoom (s : ServerState) (roomId : String) (f : Room → Room)
    (hid : ∀ r : Room, (f r).id = r.id)
    (hf : ∀ r : Room, (f r).members.length = r.members.length) (rid : String) :
    memberCount (updateRoom s roomId f).2 rid = memberCount s rid := by
  unfold updateRoom
  cases h : getRoom s roomId with
  | none => rfl
  | some room =>
    dsimp only
    exact memberCount_setRoom_preserve s roomId room _ h (hid room) (hf room) rid

theorem memberCount_mapMembers (s : ServerState) (roomId : String)
    (g : RoomMember → RoomMember) (rid : String) :
    memberCount (mapRoomMembers s roomId g) rid = memberCount s rid := by
  unfold mapRoomMembers
  exact memberCount_updateRoom s roomId
    (fun r => { r with members := r.members.map g }) (fun _ => rfl)
    (fun r => by simp) rid

theorem memberCount_set_resultTimers (t : ServerState) (l : List String) (rid : String) :
    memberCount { t with resultTimers := l } rid = memberCount t rid := rfl

theorem memberCount_stopGame (s : ServerState) (roomId : String) (now : Int)
    (rid : String) :
    memberCount (stopGame s roomId now).2.1 rid = memberCount s rid := by
  unfold stopGame
  cases h : getRoom s roomId with
  | none => rfl
  | some room =>
    dsimp only
    rw [memberCount_updateGameState, memberCount_clearTimers]

theorem memberCount_endQuestion (s : ServerState) (roomId rid : String) :
    memberCount (endQuestion s roomId).1 rid = memberCount s rid := by
  unfold endQuestion
  cases h : getRoom s roomId with
  | none => rfl
  | some room =>
    dsimp only
    cases hq : room.gameState.currentQuestion with
    | none => rfl
    | some question =>
      dsimp only
      rw [memberCount_set_resultTimers, memberCount_updateGameState,
        memberCount_clearTimers]

theorem memberCount_submitAnswer (s : ServerState) (roomId userId answer : String)
    (now : Int) (rid : String) :
    memberCount (submitAnswer s roomId userId answer now).1 rid = memberCount s rid := by
  unfold submitAnswer
  cases hr : getRoom s roomId with
  | none =>
    cases hu : getUser s userId <;> rfl
  | some room =>
    cases hu : getUser s userId with
    | none => rfl
    | some user =>
      dsimp only
      cases hq : room.gameState.currentQuestion with
      | none => rfl
      | some question =>
        dsimp only
        split
        · rfl
        · split
          · rfl
          · split <;> split <;>
              first
              | rw [memberCount_endQuestion, memberCount_updateGameState]
              | rw [memberCount_updateGameState]

theorem memberCount_updateRoom_of (s : ServerState) (roomId : String) (f : Room → Room)
    (room : Room) (h : getRoom s roomId = some room)
    (hid : (f room).id = room.id) (hf : (f room).members.length = room.members.length)
    (rid : String) :
    memberCount (updateRoom s roomId f).2 rid = memberCount s rid := by
  unfold updateRoom
  rw [h]
  dsimp only
  exact memberCount_setRoom_preserve s roomId room (f room) h hid hf rid

theorem memberCount_resetGameState (s : ServerState) (roomId : String) (now : Int)
    (rid : String) :
    memberCount (resetGameState s roomId now) rid = memberCount s rid := by
  unfold resetGameState
  cases h : getRoom s roomId with
  | none => rfl
  | some room =>
    dsimp only
    have h2 := getRoom_updateGameState_self (clearTimers s roomId) roomId
      (fun _ => { isActive := true, phase := .starting, currentQuestion := none,
                  answers := [], answerHistory := [], currentQuestionIndex := 0,
                  totalQuestions := difficultyQuestionCount room.settings.difficulty,
                  difficulty := room.settings.difficulty,
                  gameStartTime := some now, gameEndTime := none,
                  usedCountries := [], leaderboard := [] }) room h
    rw [memberCount_updateRoom_of _ roomId _ _ h2 rfl (by simp),
      memberCount_updateGameState, memberCount_clearTimers]

theorem memberCount_restartGame (s : ServerState) (roomId userId : String) (now : Int)
    (rid : String) :
    memberCount (restartGame s roomId userId now).2.1 rid = memberCount s rid := by
  unfold restartGame
  cases h : getRoom s roomId with
  | none => rfl
  | some room =>
    dsimp only
    split
    · rfl
    · split
      · rfl
      · split
        · rfl
        · dsimp only
          rw [memberCount_resetGameState]

theorem memberCount_updateSettings (s : ServerState) (wsUserId wsRoomId : Option String)
    (patch : SettingsPatch) (rid : String) :
    memberCount (handleUpdateRoomSettings s wsUserId wsRoomId patch).1 rid =
      memberCount s rid := by
  unfold handleUpdateRoomSettings
  cases wsUserId with
  | none => cases wsRoomId <;> rfl
  | some userId =>
    cases wsRoomId with
    | none => rfl
    | some roomId =>
      dsimp only
      cases h : getRoom s roomId with
      | none => rfl
      | some room =>
        dsimp only
        split
        · rfl
        · dsimp only
          exact memberCount_setRoom_preserve s roomId room
            { room with settings := applyPatch room.settings patch } h rfl rfl rid

theorem memberCount_userLeave_le (s : ServerState) (userId rid : String) :
    memberCount (userLeaveOwnRoom s userId) rid ≤ memberCount s rid := by
  unfold userLeaveOwnRoom
  cases hu : getUser s userId with
  | none => exact Nat.le_refl _
  | some user =>
    dsimp only
    split
    · exact Nat.le_refl _
    · exact memberCount_removeUser_le s user.roomId userId rid

theorem memberCount_removeConnection_le (s : ServerState) (userId rid : String) :
    memberCount (removeConnectionAndUser s userId) rid ≤ memberCount s rid := by
  unfold removeConnectionAndUser
  split
  · dsimp only
    rw [memberCount_deleteUser]
    cases hu : getUser { s with connections := s.connections.filter (fun u => u != userId) }
        userId with
    | none => exact Nat.le_refl _
    | some user =>
      dsimp only
      split
      · exact memberCount_userLeave_le _ userId rid
      · exact Nat.le_refl _
  · exact Nat.le_refl _

theorem memberCount_addUser_le (s : ServerState) (roomId : String) (user : RoomMember)
    (rid : String) :
    memberCount (addUserToRoom s roomId user).2 rid ≤
      max (memberCount s rid) (maxSizeOf (addUserToRoom s roomId user).2 rid) := by
  unfold addUserToRoom
  cases h : getRoom s roomId with
  | none => exact le_max_left _ _
  | some room =>
    dsimp only
    by_cases hfull : room.settings.maxRoomSize ≤ room.members.length
    · rw [if_pos hfull]
      exact le_max_left _ _
    · rw [if_neg hfull]
      split
      · exact le_max_left _ _
      · dsimp only
        rw [memberCount_setRoom, maxSizeOf_setRoom]
        by_cases hr : rid = room.id
        · rw [if_pos hr, if_pos hr]
          refine le_trans ?_ (le_max_right _ _)
          show (room.members ++ [user]).length ≤ room.settings.maxRoomSize
          rw [List.length_append]
          simp only [List.length_singleton]
          omega
        · rw [if_neg hr, if_neg hr]
          exact le_max_left _ _

theorem memberCount_createRoom_le (s : ServerState) (roomId : String)
    (host : RoomMember) (settings : RoomSettings) (picks : Nat → Fin 64)
    (hval : validSettings settings) (rid : String) :
    memberCount (createRoom s roomId host settings picks) rid ≤
      max (memberCount s rid) (maxSizeOf (createRoom s roomId host settings picks) rid) := by
  unfold createRoom
  dsimp only
  rw [memberCount_setRoom, maxSizeOf_setRoom]
  by_cases hr : rid = roomId
  · rw [if_pos hr, if_pos hr]
    refine le_trans ?_ (le_max_right _ _)
    show [host].length ≤ settings.maxRoomSize
    have h2 := hval.1
    simp only [List.length_singleton]
    omega
  · rw [if_neg hr, if_neg hr]
    exact le_max_left _ _

theorem memberCount_joinRoom_le (s : ServerState) (wsUserId wsRoomId : Option String)
    (rl : Bool) (code uname : String) (rid : String) :
    memberCount (handleJoinRoom s wsUserId wsRoomId rl code uname).1 rid ≤
      max (memberCount s rid)
        (maxSizeOf (handleJoinRoom s wsUserId wsRoomId rl code uname).1 rid) := by
  unfold handleJoinRoom
  cases wsUserId with
  | none => exact le_max_left _ _
  | some userId =>
    dsimp only
    split
    · exact le_max_left _ _
    · split
      · exact le_max_left _ _
      · cases hc : getRoomByInviteCode s code with
        | none => exact le_max_left _ _
        | some room =>
          dsimp only
          split
          · exact le_max_left _ _
          · split
            · exact le_max_left _ _
            · split
              · exact le_max_left _ _
              · cases hup : updateUser s userId
                    (fun u => { u with username := uname, roomId := room.id }) with
                | mk o s1 =>
                  have hs1 : memberCount s1 rid = memberCount s rid := by
                    have := memberCount_updateUser s userId
                      (fun u => { u with username := uname, roomId := room.id }) rid
                    rw [hup] at this
                    exact this
                  cases o with
                  | none =>
                    dsimp only
                    rw [hs1] at *
                    exact le_max_left _ _
                  | some u1 =>
                    dsimp only
                    cases hadd : addUserToRoom s1 room.id (memberOfUser u1) with
                    | mk o2 s2 =>
                      have hb := memberCount_addUser_le s1 room.id (memberOfUser u1) rid
                      rw [hadd] at hb
                      cases o2 with
                      | none =>
                        dsimp only
                        rw [← hs1]
                        exact hb
                      | some r2 =>
                        dsimp only
                        rw [← hs1]
                        exact hb

theorem memberCount_kickHandler_le (s : ServerState) (wsUserId wsRoomId : Option String)
    (targetId : String) (rid : String) :
    memberCount (handleKickUser s wsUserId wsRoomId targetId).1 rid ≤
      memberCount s rid := by
  unfold handleKickUser
  cases wsUserId with
  | none => cases wsRoomId <;> exact Nat.le_refl _
  | some userId =>
    cases wsRoomId with
    | none => exact Nat.le_refl _
    | some roomId =>
      dsimp only
      cases h : getRoom s roomId with
      | none => exact Nat.le_refl _
      | some room =>
        dsimp only
        split
        · exact Nat.le_refl _
        · cases hu : getUser s targetId with
          | none => exact Nat.le_refl _
          | some u0 =>
            dsimp only
            cases hk : kickUserFromRoom s roomId targetId with
            | mk o s1 =>
              have hs1 : memberCount s1 rid ≤ memberCount s rid := by
                have := memberCount_kickFromRoom_le s roomId targetId rid
                rw [hk] at this
                exact this
              cases o with
              | none =>
                dsimp only
                rw [memberCount_updateUser]
                exact hs1
              | some updatedRoom =>
                dsimp only
                cases hm : updatedRoom.members with
                | nil =>
                  dsimp only
                  rw [memberCount_updateUser]
                  exact hs1
                | cons nh rest =>
                  dsimp only
                  split
                  · rw [memberCount_updateUser, memberCount_updateUser,
                      memberCount_setNewHost]
                    exact hs1
                  · rw [memberCount_updateUser]
                    exact hs1

theorem memberCount_disconnect_le (s : ServerState) (userId : String) (now : Int)
    (rid : String) :
    memberCount (handleUserDisconnect s userId now).1 rid ≤ memberCount s rid := by
  unfold handleUserDisconnect
  cases hu : getUser s userId with
  | none => exact memberCount_removeConnection_le s userId rid
  | some user =>
    dsimp only
    split
    · exact memberCount_removeConnection_le s userId rid
    · cases hrm : removeUserFromRoom s user.roomId userId with
      | mk o s1 =>
        have hs1 : memberCount s1 rid ≤ memberCount s rid := by
          have := memberCount_removeUser_le s user.roomId userId rid
          rw [hrm] at this
          exact this
        cases o with
        | none =>
          dsimp only
          exact le_trans (memberCount_removeConnection_le s1 userId rid) hs1
        | some updatedRoom =>
          dsimp only
          cases hg : getRoom s1 user.roomId with
          | none =>
            dsimp only
            split
            · refine le_trans (memberCount_removeConnection_le _ userId rid) ?_
              refine le_trans (memberCount_deleteRoom_le _ user.roomId rid) ?_
              rw [memberCount_stopGame]
              exact hs1
            · exact le_trans (memberCount_removeConnection_le s1 userId rid) hs1
          | some room2 =>
            cases hm : updatedRoom.members with
            | nil =>
              dsimp only
              split
              · refine le_trans (memberCount_removeConnection_le _ userId rid) ?_
                refine le_trans (memberCount_deleteRoom_le _ user.roomId rid) ?_
                rw [memberCount_stopGame]
                exact hs1
              · exact le_trans (memberCount_removeConnection_le s1 userId rid) hs1
            | cons nh rest =>
              dsimp only
              split
              · split
                · exact le_trans (memberCount_removeConnection_le _ userId rid)
                    (le_trans (memberCount_deleteRoom_le _ user.roomId rid)
                      (le_trans (le_of_eq (memberCount_stopGame _ user.roomId now rid))
                        (le_trans (le_of_eq (memberCount_updateUser _ nh.id _ rid))
                          (le_trans
                            (le_of_eq (memberCount_setNewHost s1 user.roomId nh.id rid))
                            hs1))))
                · exact le_trans (memberCount_removeConnection_le _ userId rid)
                    (le_trans (memberCount_deleteRoom_le _ user.roomId rid)
                      (le_trans (le_of_eq (memberCount_stopGame _ user.roomId now rid))
                        hs1))
              · split
                · exact le_trans (memberCount_removeConnection_le _ userId rid)
                    (le_trans (le_of_eq (memberCount_updateUser _ nh.id _ rid))
                      (le_trans
                        (le_of_eq (memberCount_setNewHost s1 user.roomId nh.id rid))
                        hs1))
                · exact le_trans (memberCount_removeConnection_le s1 userId rid) hs1

/-- Per-operation capacity bound: a single server operation either keeps a
room's member count, shrinks it, or (joining operations) leaves it within the
resulting room's `maxRoomSize`. -/
theorem memberCount_step_le (s s' : ServerState) (hstep : Step s s') (rid : String) :
    memberCount s' rid ≤ max (memberCount s rid) (maxSizeOf s' rid) := by
  cases hstep with
  | createUserStep userId username =>
    rw [memberCount_createUser]
    exact le_max_left _ _
  | createRoomStep roomId host settings picks hval =>
    exact memberCount_createRoom_le s roomId host settings picks hval rid
  | joinRoomStep wsUserId wsRoomId rlAllowed inviteCode username =>
    exact memberCount_joinRoom_le s wsUserId wsRoomId rlAllowed inviteCode username rid
  | addUserStep roomId user =>
    exact memberCount_addUser_le s roomId user rid
  | removeUserStep roomId userId =>
    exact le_trans (memberCount_removeUser_le s roomId userId rid) (le_max_left _ _)
  | kickFromRoomStep roomId userId =>
    exact le_trans (memberCount_kickFromRoom_le s roomId userId rid) (le_max_left _ _)
  | kickUserStep wsUserId wsRoomId targetId =>
    exact le_trans (memberCount_kickHandler_le s wsUserId wsRoomId targetId rid)
      (le_max_left _ _)
  | setHostStep roomId newHostId =>
    rw [memberCount_setNewHost]
    exact le_max_left _ _
  | updateSettingsStep wsUserId wsRoomId patch hval =>
    rw [memberCount_updateSettings]
    exact le_max_left _ _
  | updateGameStateStep roomId f =>
    rw [memberCount_updateGameState]
    exact le_max_left _ _
  | mapMembersStep roomId f =>
    rw [memberCount_mapMembers]
    exact le_max_left _ _
  | submitAnswerStep roomId userId answer now =>
    rw [memberCount_submitAnswer]
    exact le_max_left _ _
  | endQuestionStep roomId =>
    rw [memberCount_endQuestion]
    exact le_max_left _ _
  | resetGameStep roomId now =>
    rw [memberCount_resetGameState]
    exact le_max_left _ _
  | restartGameStep roomId userId now =>
    rw [memberCount_restartGame]
    exact le_max_left _ _
  | stopGameStep roomId now =>
    rw [memberCount_stopGame]
    exact le_max_left _ _
  | disconnectStep userId now =>
    exact le_trans (memberCount_disconnect_le s userId now rid) (le_max_left _ _)
  | deleteRoomStep roomId =>
    exact le_trans (memberCount_deleteRoom_le s roomId rid) (le_max_left _ _)
  | deleteUserStep userId =>
    rw [memberCount_deleteUser]
    exact le_max_left _ _
  | updateUserStep userId f =>
    rw [memberCount_updateUser]
    exact le_max_left _ _

/-- C4 (amended): the admission-time capacity guards hold — `addUserToRoom`
refuses a full room and leaves the state unchanged, and a `JOIN_ROOM` that
reaches a full room is answered with `ERROR{code:ROOM_FULL}` without touching
the state — and every single server operation keeps each room's member count
within `max` of its previous count and the resulting room's `maxRoomSize`.
The global invariant `|members| ≤ maxRoomSize` of the original claim does
not hold on reachable states: `UPDATE_ROOM_SETTINGS` can shrink
`maxRoomSize` below the current member count (see the counterexample). -/
theorem maxRoomSize_spec :
    (∀ (s : ServerState) (roomId : String) (user : RoomMember) (room : Room),
      getRoom s roomId = some room →
      room.settings.maxRoomSize ≤ room.members.length →
      addUserToRoom s roomId user = (none, s)) ∧
    (∀ (s : ServerState) (userId inviteCode username : String) (room : Room),
      getRoomByInviteCode s inviteCode = some room →
      userId ∉ room.kickedUsers →
      (room.members.find? (fun m => m.username == username)).isSome = false →
      room.settings.maxRoomSize ≤ room.members.length →
      handleJoinRoom s (some userId) none true inviteCode username =
        (s, none, [Emit.toCaller (.error .roomFull)])) ∧
    (∀ (s s' : ServerState), Step s s' → ∀ rid : String,
      memberCount s' rid ≤ max (memberCount s rid) (maxSizeOf s' rid)) := by
  refine ⟨?_, ?_, ?_⟩
  · intro s roomId user room h hfull
    unfold addUserToRoom
    rw [h]
    dsimp only
    rw [if_pos hfull]
  · intro s userId inviteCode username room hc hkick hname hfull
    unfold handleJoinRoom
    dsimp only
    rw [if_neg (by decide)]
    rw [if_neg (by decide)]
    rw [hc]
    dsimp only
    rw [if_neg hkick]
    rw [if_neg (by simp [hname])]
    rw [if_pos hfull]
  · intro s s' hstep rid
    exact memberCount_step_le s s' hstep rid

/-- C4 witness: in the two-member room `r1` of `sQ` (capacity 2), adding a
third member is refused with the state unchanged; a `JOIN_ROOM` with `r1`'s
invite code is answered `ROOM_FULL`; and a removal step respects the
per-operation capacity bound. -/
theorem maxRoomSize_spec_witness :
    addUserToRoom sQ "r1" memberC = (none, sQ) ∧
    handleJoinRoom sQ (some "C") none true "ABC123" "carol" =
      (sQ, none, [Emit.toCaller (.error .roomFull)]) ∧
    memberCount (removeUserFromRoom sQ "r1" "B").2 "r1" ≤
      max (memberCount sQ "r1") (maxSizeOf (removeUserFromRoom sQ "r1" "B").2 "r1") :=
  ⟨maxRoomSize_spec.1 sQ "r1" memberC roomQ (by decide) (by decide),
   maxRoomSize_spec.2.1 sQ "C" "ABC123" "carol" roomQ (by decide) (by decide)
     (by decide) (by decide),
   maxRoomSize_spec.2.2 sQ _ (Step.removeUserStep sQ "r1" "B") "r1"⟩

/-- C4 counterexample: the invariant `|members| ≤ maxRoomSize` fails on a
reachable state.  Create a room with capacity 3, fill it with three members,
then have the host shrink `maxRoomSize` to 2 via `UPDATE_ROOM_SETTINGS`
(whose handler performs no member-count check): the room now has 3 members
but capacity 2. -/
theorem maxRoomSize_counterexample :
    Reachable c4bad ∧ memberCount c4bad "room" = 3 ∧ maxSizeOf c4bad "room" = 2 :=
  ⟨Reachable.step
    (Reachable.step
      (Reachable.step
        (Reachable.step Reachable.init
          (Step.createRoomStep initialState "room" c4host c4settings picksDash
            (by decide)))
        (Step.addUserStep c4s1 "room" c4memB))
      (Step.addUserStep c4s2 "room" c4memC))
    (Step.updateSettingsStep c4s3 (some "A") (some "room") c4patch (by decide)),
   by decide, by decide⟩

end FlagsGames
